import Mathlib

/-!
# small_gicp: rejectors, GICP factor and the Gauss-Newton / Levenberg-Marquardt optimizers

A shallow embedding of

* `include/small_gicp/registration/rejector.hpp`
* `include/small_gicp/factors/gicp_factor.hpp`
* `include/small_gicp/registration/optimizer.hpp`

Conventions of the embedding.

* `double` is modelled by `ℚ` with exact arithmetic; Eigen's fixed-size vectors and matrices are
  Mathlib's `Fin n → ℚ` and `Matrix (Fin m) (Fin n) ℚ`.
* `size_t` values are natural numbers; the reserved value `std::numeric_limits<size_t>::max()`
  is `SIZE_MAX = 2 ^ 64 - 1`.
* Member functions that mutate `this` or write through pointers take the old contents and return
  the new contents next to their C++ return value.
* Loops are recursive functions on the number of iterations that remain.
-/

namespace small_gicp

/-! ## Data model -/

abbrev Vector3d := Fin 3 → ℚ
abbrev Vector4d := Fin 4 → ℚ
abbrev Vector6d := Fin 6 → ℚ
abbrev Matrix3d := Matrix (Fin 3) (Fin 3) ℚ
abbrev Matrix4d := Matrix (Fin 4) (Fin 4) ℚ
abbrev Matrix6d := Matrix (Fin 6) (Fin 6) ℚ
abbrev Matrix46d := Matrix (Fin 4) (Fin 6) ℚ

/-- The value `std::numeric_limits<size_t>::max()` for a 64-bit `size_t`. -/
def SIZE_MAX : Nat := 2 ^ 64 - 1

/-- The block `M.block<3, 3>(0, 0)` read as a value. -/
def block3 (M : Matrix4d) : Matrix3d :=
  !![M 0 0, M 0 1, M 0 2;
     M 1 0, M 1 1, M 1 2;
     M 2 0, M 2 1, M 2 2]

/-- The assignment `M.block<3, 3>(0, 0) = B`: the other entries of `M` are kept. -/
def setBlock3 (M : Matrix4d) (B : Matrix3d) : Matrix4d :=
  !![B 0 0, B 0 1, B 0 2, M 0 3;
     B 1 0, B 1 1, B 1 2, M 1 3;
     B 2 0, B 2 1, B 2 2, M 2 3;
     M 3 0, M 3 1, M 3 2, M 3 3]

/-- The segment `v.head<3>()` of a 4-vector. -/
def head3 (v : Vector4d) : Vector3d :=
  ![v 0, v 1, v 2]

/-- Eigen's `inverse()` of a fixed 3x3 matrix: the cofactor matrix divided by the determinant. -/
def inverse3 (A : Matrix3d) : Matrix3d :=
  (A.det)⁻¹ • A.adjugate

/-- The expression `A.ldlt().solve(rhs)` of Eigen, in exact arithmetic the solution of
`A * x = rhs`, computed by Cramer's rule. -/
def ldlt_solve (A : Matrix6d) (rhs : Vector6d) : Vector6d :=
  (A.det)⁻¹ • (A.adjugate.mulVec rhs)

/-- An `Eigen::Isometry3d`: the linear (rotation) block and the translation; the last row of
the homogeneous matrix is `(0, 0, 0, 1)`. -/
structure Isometry3d where
  linear : Matrix3d
  translation : Vector3d
deriving DecidableEq

namespace Isometry3d

/-- The value `Eigen::Isometry3d::Identity()`. -/
def Identity : Isometry3d := ⟨1, 0⟩

/-- The homogeneous 4x4 matrix `T.matrix()`. -/
def matrix (T : Isometry3d) : Matrix4d :=
  !![T.linear 0 0, T.linear 0 1, T.linear 0 2, T.translation 0;
     T.linear 1 0, T.linear 1 1, T.linear 1 2, T.translation 1;
     T.linear 2 0, T.linear 2 1, T.linear 2 2, T.translation 2;
     0, 0, 0, 1]

/-- The product `T * p` with a homogeneous 4-vector: the first three rows are the affine part
`T.affine() * p`, the last row is copied from `p`. -/
def apply (T : Isometry3d) (p : Vector4d) : Vector4d :=
  ![(T.matrix.mulVec p) 0, (T.matrix.mulVec p) 1, (T.matrix.mulVec p) 2, p 3]

/-- The product `A * B` of two isometries. -/
def mul (A B : Isometry3d) : Isometry3d :=
  ⟨A.linear * B.linear, A.linear.mulVec B.translation + A.translation⟩

end Isometry3d

/-- Modelled from the spec: `skew` of `small_gicp/util/lie.hpp`, the skew-symmetric
(cross-product) matrix of a 3-vector. -/
def skew (x : Vector3d) : Matrix3d :=
  !![0, -(x 2), x 1; x 2, 0, -(x 0); -(x 1), x 0, 0]

/-- The point-cloud interface `traits::size`, `traits::point` and `traits::cov`. -/
structure PointCloud where
  size : Nat
  point : Nat → Vector4d
  cov : Nat → Matrix4d

/-- The search-tree interface `traits::knn_search(tree, pt, 1, &k_index, &k_sq_dist)`:
`none` when no neighbour is found, else the index and the squared distance written. -/
structure TargetTree where
  knn_search : Vector4d → Option (Nat × ℚ)

/-- The `CorrespondenceRejector` template parameter: `rejector(T, target_index, source_index,
sq_dist)`. -/
abbrev CorrespondenceRejector := Isometry3d → Nat → Nat → ℚ → Bool

/-! ## rejector.hpp -/

structure NullRejector where
deriving DecidableEq

/-- The call operator `NullRejector::operator()`. -/
def NullRejector.call (_self : NullRejector) (_T : Isometry3d) (_target_index _source_index : Nat)
    (_sq_dist : ℚ) : Bool :=
  false

structure DistanceRejector where
  max_dist_sq : ℚ
deriving DecidableEq

/-- The constructor `DistanceRejector()`. -/
def DistanceRejector.default : DistanceRejector := ⟨1⟩

/-- The constructor `DistanceRejector(double max_dist)`. -/
def DistanceRejector.new (max_dist : ℚ) : DistanceRejector := ⟨max_dist * max_dist⟩

/-- The call operator `DistanceRejector::operator()`. -/
def DistanceRejector.call (self : DistanceRejector) (_T : Isometry3d)
    (_target_index _source_index : Nat) (sq_dist : ℚ) : Bool :=
  decide (sq_dist > self.max_dist_sq)

/-! ## gicp_factor.hpp -/

structure GICPFactor where
  target_index : Nat
  source_index : Nat
  mahalanobis : Matrix4d
deriving DecidableEq

/-- The contents of the output locations `*H`, `*b` and `*e` of `linearize`. -/
structure LinearizeOut where
  H : Matrix6d
  b : Vector6d
  e : ℚ
deriving DecidableEq

namespace GICPFactor

/-- The constructor `GICPFactor()`. -/
def new : GICPFactor := ⟨SIZE_MAX, SIZE_MAX, 0⟩

/-- The 4x6 matrix `J` of `linearize`: zero, then `J.block<3, 3>(0, 0) = T.linear() * skew(p)`
and `J.block<3, 3>(0, 3) = -T.linear()`. -/
def jacobian (T : Isometry3d) (p : Vector4d) : Matrix46d :=
  let A : Matrix3d := T.linear * skew (head3 p)
  let B : Matrix3d := -T.linear
  !![A 0 0, A 0 1, A 0 2, B 0 0, B 0 1, B 0 2;
     A 1 0, A 1 1, A 1 2, B 1 0, B 1 1, B 1 2;
     A 2 0, A 2 1, A 2 2, B 2 0, B 2 1, B 2 2;
     0, 0, 0, 0, 0, 0]

/-- The member function `GICPFactor::linearize`. The result is the returned flag, the factor
after the call, and the contents of `*H`, `*b`, `*e` after the call (`out` before it). -/
def linearize (self : GICPFactor) (target source : PointCloud) (target_tree : TargetTree)
    (T : Isometry3d) (source_index : Nat) (rejector : CorrespondenceRejector)
    (out : LinearizeOut) : Bool × GICPFactor × LinearizeOut :=
  let self1 : GICPFactor := { self with source_index := source_index, target_index := SIZE_MAX }
  let transed_source_pt := T.apply (source.point source_index)
  match target_tree.knn_search transed_source_pt with
  | none => (false, self1, out)
  | some (k_index, k_sq_dist) =>
    if rejector T k_index source_index k_sq_dist then (false, self1, out)
    else
      let RCR : Matrix4d :=
        target.cov k_index + T.matrix * source.cov source_index * T.matrix.transpose
      let mahalanobis := setBlock3 self1.mahalanobis (inverse3 (block3 RCR))
      let residual : Vector4d := target.point k_index - transed_source_pt
      let J := jacobian T (source.point source_index)
      (true,
        { self1 with target_index := k_index, mahalanobis := mahalanobis },
        { H := J.transpose * mahalanobis * J
          b := (J.transpose * mahalanobis).mulVec residual
          e := (1 / 2) * Matrix.dotProduct residual (mahalanobis.mulVec residual) })

/-- The member function `GICPFactor::error`. -/
def error (self : GICPFactor) (target source : PointCloud) (T : Isometry3d) : ℚ :=
  if self.target_index = SIZE_MAX then 0
  else
    let transed_source_pt := T.apply (source.point self.source_index)
    let residual : Vector4d := target.point self.target_index - transed_source_pt
    (1 / 2) * Matrix.dotProduct residual (self.mahalanobis.mulVec residual)

/-- The member function `GICPFactor::inlier`. -/
def inlier (self : GICPFactor) : Bool :=
  decide (self.target_index ≠ SIZE_MAX)

end GICPFactor

/-! ## External collaborators of optimizer.hpp -/

structure RegistrationResult where
  T_target_source : Isometry3d
  converged : Bool
  iterations : Nat
  num_inliers : Nat
  H : Matrix6d
  b : Vector6d
  error : ℚ
deriving DecidableEq

/-- Modelled from the spec: the constructor `RegistrationResult(init_T)` of
`small_gicp/registration/registration_result.hpp`: the result is created once per call with
the initial pose, not converged, and every other field zero. -/
def RegistrationResult.new (T : Isometry3d) : RegistrationResult :=
  ⟨T, false, 0, 0, 0, 0, 0⟩

/-- The termination-criteria interface `criteria.converged(delta)`. -/
structure TerminationCriteria where
  converged : Vector6d → Bool

/-- The `Reduction` template parameter: `reduction.linearize(target, source, target_tree,
rejector, T, factors)` returns `(H, b, e)` and updates the factors; `reduction.error(target,
source, T, factors)` returns the summed cost. -/
structure Reduction where
  linearize : PointCloud → PointCloud → TargetTree → CorrespondenceRejector → Isometry3d →
    List GICPFactor → LinearizeOut × List GICPFactor
  error : PointCloud → PointCloud → Isometry3d → List GICPFactor → ℚ

namespace SerialReduction

/-- Modelled from the spec: the loop of the serial `Reduction::linearize` of
`small_gicp/registration/reduction.hpp`: factor number `i` is linearized for source point `i`,
the contributions of the factors that succeed are summed, failed factors are skipped. -/
def linearizeLoop (target source : PointCloud) (target_tree : TargetTree)
    (rejector : CorrespondenceRejector) (T : Isometry3d) :
    Nat → List GICPFactor → LinearizeOut → LinearizeOut × List GICPFactor
  | _, [], sum => (sum, [])
  | i, f :: fs, sum =>
    let r := f.linearize target source target_tree T i rejector ⟨0, 0, 0⟩
    let sum1 : LinearizeOut :=
      if r.1 then ⟨sum.H + r.2.2.H, sum.b + r.2.2.b, sum.e + r.2.2.e⟩ else sum
    let rest := linearizeLoop target source target_tree rejector T (i + 1) fs sum1
    (rest.1, r.2.1 :: rest.2)

/-- Modelled from the spec: the serial `Reduction::linearize`, the sum of the `linearize`
results over the factors. -/
def linearize (target source : PointCloud) (target_tree : TargetTree)
    (rejector : CorrespondenceRejector) (T : Isometry3d) (factors : List GICPFactor) :
    LinearizeOut × List GICPFactor :=
  linearizeLoop target source target_tree rejector T 0 factors ⟨0, 0, 0⟩

/-- Modelled from the spec: the serial `Reduction::error`, the sum of `error()` over the
factors. -/
def error (target source : PointCloud) (T : Isometry3d) : List GICPFactor → ℚ
  | [] => 0
  | f :: fs => f.error target source T + error target source T fs

end SerialReduction

/-- Modelled from the spec: the serial reduction, as a `Reduction`. -/
def serialReduction : Reduction :=
  ⟨SerialReduction.linearize, SerialReduction.error⟩

/-- The state that the loops of the optimizers update: the result and the factors. -/
structure OptState where
  result : RegistrationResult
  factors : List GICPFactor
deriving DecidableEq

/-! ## optimizer.hpp: GaussNewtonOptimizer -/

structure GaussNewtonOptimizer where
  verbose : Bool
  max_iterations : Int
  lambda : ℚ
deriving DecidableEq

namespace GaussNewtonOptimizer

/-- The constructor `GaussNewtonOptimizer()`. -/
def default : GaussNewtonOptimizer := ⟨false, 20, 1 / 1000000⟩

/-- The step `delta` that the loop body computes from the state it starts with. -/
def delta (self : GaussNewtonOptimizer) (target source : PointCloud) (target_tree : TargetTree)
    (rejector : CorrespondenceRejector) (reduction : Reduction) (st : OptState) : Vector6d :=
  let lin := reduction.linearize target source target_tree rejector
    st.result.T_target_source st.factors
  ldlt_solve (lin.1.H + self.lambda • (1 : Matrix6d)) (-lin.1.b)

/-- The body of the loop of `optimize` at index `i`. The parameter `se3_exp` is the function
of that name of `small_gicp/util/lie.hpp`. -/
def body (self : GaussNewtonOptimizer) (se3_exp : Vector6d → Isometry3d)
    (target source : PointCloud) (target_tree : TargetTree) (rejector : CorrespondenceRejector)
    (criteria : TerminationCriteria) (reduction : Reduction) (i : Nat) (st : OptState) :
    OptState :=
  let lin := reduction.linearize target source target_tree rejector
    st.result.T_target_source st.factors
  let delta := ldlt_solve (lin.1.H + self.lambda • (1 : Matrix6d)) (-lin.1.b)
  { result :=
      { st.result with
        converged := criteria.converged delta
        T_target_source := st.result.T_target_source.mul (se3_exp delta)
        iterations := i
        H := lin.1.H
        b := lin.1.b
        error := lin.1.e }
    factors := lin.2 }

/-- The loop `for (int i = 0; i < max_iterations && !result.converged; i++)`, started at index
`i` with `fuel = max_iterations - i` iterations left. The second component counts the
executions of the body. -/
def loop (self : GaussNewtonOptimizer) (se3_exp : Vector6d → Isometry3d)
    (target source : PointCloud) (target_tree : TargetTree) (rejector : CorrespondenceRejector)
    (criteria : TerminationCriteria) (reduction : Reduction) :
    Nat → Nat → OptState → OptState × Nat
  | 0, _, st => (st, 0)
  | fuel + 1, i, st =>
    if st.result.converged then (st, 0)
    else
      let r := loop self se3_exp target source target_tree rejector criteria reduction fuel
        (i + 1) (body self se3_exp target source target_tree rejector criteria reduction i st)
      (r.1, r.2 + 1)

/-- The member function `GaussNewtonOptimizer::optimize`: the returned result, and the factors
after the call. -/
def optimize (self : GaussNewtonOptimizer) (se3_exp : Vector6d → Isometry3d)
    (target source : PointCloud) (target_tree : TargetTree) (rejector : CorrespondenceRejector)
    (criteria : TerminationCriteria) (reduction : Reduction) (init_T : Isometry3d)
    (factors : List GICPFactor) : RegistrationResult × List GICPFactor :=
  let r := loop self se3_exp target source target_tree rejector criteria reduction
    self.max_iterations.toNat 0 ⟨RegistrationResult.new init_T, factors⟩
  ({ r.1.result with num_inliers := r.1.factors.countP GICPFactor.inlier }, r.1.factors)

/-- The number of times `optimize` executes the body of its loop. -/
def bodyRuns (self : GaussNewtonOptimizer) (se3_exp : Vector6d → Isometry3d)
    (target source : PointCloud) (target_tree : TargetTree) (rejector : CorrespondenceRejector)
    (criteria : TerminationCriteria) (reduction : Reduction) (init_T : Isometry3d)
    (factors : List GICPFactor) : Nat :=
  (loop self se3_exp target source target_tree rejector criteria reduction
    self.max_iterations.toNat 0 ⟨RegistrationResult.new init_T, factors⟩).2

/-- The state at the start of iteration `k` when the body is run `k` times from the initial
state without looking at `converged`. -/
def stateAt (self : GaussNewtonOptimizer) (se3_exp : Vector6d → Isometry3d)
    (target source : PointCloud) (target_tree : TargetTree) (rejector : CorrespondenceRejector)
    (criteria : TerminationCriteria) (reduction : Reduction) (init_T : Isometry3d)
    (factors : List GICPFactor) : Nat → OptState
  | 0 => ⟨RegistrationResult.new init_T, factors⟩
  | k + 1 =>
    body self se3_exp target source target_tree rejector criteria reduction k
      (stateAt self se3_exp target source target_tree rejector criteria reduction init_T factors k)

/-- Whether `criteria.converged(delta)` holds for the step `delta` of iteration `k`, when the
body is run from the initial state. -/
def convergedAt (self : GaussNewtonOptimizer)
    (se3_exp : Vector6d → Isometry3d)
    (target source : PointCloud) (target_tree : TargetTree) (rejector : CorrespondenceRejector)
    (criteria : TerminationCriteria) (reduction : Reduction) (init_T : Isometry3d)
    (factors : List GICPFactor) (k : Nat) : Bool :=
  criteria.converged (self.delta target source target_tree rejector reduction
    (GaussNewtonOptimizer.stateAt self se3_exp target source target_tree rejector criteria
      reduction init_T factors k))

end GaussNewtonOptimizer

/-! ## optimizer.hpp: LevenbergMarquardtOptimizer -/

structure LevenbergMarquardtOptimizer where
  verbose : Bool
  max_iterations : Int
  max_inner_iterations : Int
  init_lambda : ℚ
  lambda_factor : ℚ
deriving DecidableEq

/-- The state of the Levenberg-Marquardt loops: the damping, the result and the factors. -/
structure LMState where
  lambda : ℚ
  result : RegistrationResult
  factors : List GICPFactor
deriving DecidableEq

namespace LevenbergMarquardtOptimizer

/-- The constructor `LevenbergMarquardtOptimizer()`. -/
def default : LevenbergMarquardtOptimizer := ⟨false, 20, 10, 1 / 1000, 10⟩

/-- The inner loop `for (int j = 0; j < max_inner_iterations; j++)` with `fuel` trials left,
for the `(H, b, e)` of this outer iteration and the factors it linearized. The result is the
damping, the result record and the flag `success` after the loop. -/
def inner (self : LevenbergMarquardtOptimizer) (se3_exp : Vector6d → Isometry3d)
    (target source : PointCloud) (criteria : TerminationCriteria) (reduction : Reduction)
    (lin : LinearizeOut) (factors : List GICPFactor) :
    Nat → ℚ → RegistrationResult → ℚ × RegistrationResult × Bool
  | 0, lambda, result => (lambda, result, false)
  | fuel + 1, lambda, result =>
    let delta := ldlt_solve (lin.H + lambda • (1 : Matrix6d)) (-lin.b)
    let new_T := result.T_target_source.mul (se3_exp delta)
    let new_e := reduction.error target source new_T factors
    if new_e < lin.e then
      (lambda / self.lambda_factor,
        { result with converged := criteria.converged delta, T_target_source := new_T },
        true)
    else
      inner self se3_exp target source criteria reduction lin factors fuel
        (lambda * self.lambda_factor) result

/-- The body of the outer loop of `optimize` at index `i`. -/
def body (self : LevenbergMarquardtOptimizer) (se3_exp : Vector6d → Isometry3d)
    (target source : PointCloud) (target_tree : TargetTree) (rejector : CorrespondenceRejector)
    (criteria : TerminationCriteria) (reduction : Reduction) (i : Nat) (st : LMState) :
    LMState :=
  let lin := reduction.linearize target source target_tree rejector
    st.result.T_target_source st.factors
  let r := inner self se3_exp target source criteria reduction lin.1 lin.2
    self.max_inner_iterations.toNat st.lambda st.result
  { lambda := r.1
    result := { r.2.1 with iterations := i, H := lin.1.H, b := lin.1.b, error := lin.1.e }
    factors := lin.2 }

/-- The outer loop `for (int i = 0; i < max_iterations && !result.converged; i++)`, started at
index `i` with `fuel = max_iterations - i` iterations left. -/
def loop (self : LevenbergMarquardtOptimizer) (se3_exp : Vector6d → Isometry3d)
    (target source : PointCloud) (target_tree : TargetTree) (rejector : CorrespondenceRejector)
    (criteria : TerminationCriteria) (reduction : Reduction) :
    Nat → Nat → LMState → LMState
  | 0, _, st => st
  | fuel + 1, i, st =>
    if st.result.converged then st
    else
      loop self se3_exp target source target_tree rejector criteria reduction fuel (i + 1)
        (body self se3_exp target source target_tree rejector criteria reduction i st)

/-- The member function `LevenbergMarquardtOptimizer::optimize`: the returned result, and the
factors after the call. -/
def optimize (self : LevenbergMarquardtOptimizer) (se3_exp : Vector6d → Isometry3d)
    (target source : PointCloud) (target_tree : TargetTree) (rejector : CorrespondenceRejector)
    (criteria : TerminationCriteria) (reduction : Reduction) (init_T : Isometry3d)
    (factors : List GICPFactor) : RegistrationResult × List GICPFactor :=
  let st := loop self se3_exp target source target_tree rejector criteria reduction
    self.max_iterations.toNat 0 ⟨self.init_lambda, RegistrationResult.new init_T, factors⟩
  ({ st.result with num_inliers := st.factors.countP GICPFactor.inlier }, st.factors)

end LevenbergMarquardtOptimizer

/-! ## Hypotheses on the external collaborators -/

/-- The squared distance `(a - b).squaredNorm()` of two homogeneous points. -/
def sq_dist (a b : Vector4d) : ℚ :=
  Matrix.dotProduct (a - b) (a - b)

/-- The nearest-neighbour search of `tree` over `cloud` is exact: it finds nothing in an empty
cloud only, and what it reports is a valid index of the cloud with its squared distance to the
query, no larger than that of any other point of the cloud. -/
def ExactSearch (tree : TargetTree) (cloud : PointCloud) : Prop :=
  ∀ q : Vector4d,
    (0 < cloud.size → (tree.knn_search q).isSome = true) ∧
    ∀ k d, tree.knn_search q = some (k, d) →
      k < cloud.size ∧ d = sq_dist (cloud.point k) q ∧
        ∀ j, j < cloud.size → d ≤ sq_dist (cloud.point j) q

/-- The contract between the search tree and the target cloud: the size of the cloud is a
`size_t`, and every index that the search reports is a valid index of the cloud, one in
`[0, size)`. -/
def ValidSearch (tree : TargetTree) (target : PointCloud) : Prop :=
  target.size ≤ SIZE_MAX ∧ ∀ q k d, tree.knn_search q = some (k, d) → k < target.size

/-! ## Concrete inputs -/

/-- A cloud of one point at the origin with identity covariance. -/
def cloudA : PointCloud := ⟨1, fun _ => ![0, 0, 0, 1], fun _ => 1⟩

/-- A cloud of one point at `(1, 0, 0)` with identity covariance. -/
def cloudB : PointCloud := ⟨1, fun _ => ![1, 0, 0, 1], fun _ => 1⟩

/-- A cloud of one point at `(1, 0, 0)` whose covariance is the identity in its 3x3 block and
zero in its fourth row and column. -/
def cloudP : PointCloud :=
  ⟨1, fun _ => ![1, 0, 0, 1], fun _ => !![1, 0, 0, 0; 0, 1, 0, 0; 0, 0, 1, 0; 0, 0, 0, 0]⟩

/-- A tree that reports index 0 at squared distance 1. -/
def treeZero : TargetTree := ⟨fun _ => some (0, 1)⟩

/-- The exact search over `cloudB`. -/
def treeB : TargetTree := ⟨fun q => some (0, sq_dist (cloudB.point 0) q)⟩

/-- Output locations holding zero. -/
def out0 : LinearizeOut := ⟨0, 0, 0⟩

/-- The pose with identity rotation and translation `(1, 0, 0)`. -/
def shiftX : Isometry3d := ⟨1, ![1, 0, 0]⟩

/-- A first-order stand-in for `se3_exp`, to instantiate the parameter at concrete inputs:
rotation block `I + skew(omega)`, translation `v` for `delta = [omega; v]`. -/
def se3_exp_lin (delta : Vector6d) : Isometry3d :=
  ⟨1 + skew ![delta 0, delta 1, delta 2], ![delta 3, delta 4, delta 5]⟩

/-- Termination criteria that accept exactly the zero step. -/
def zeroStepCriteria : TerminationCriteria := ⟨fun delta => decide (delta = 0)⟩

/-- A reduction whose linearization reports cost 1 and whose trial cost is 0 at every pose. -/
def stepDownReduction : Reduction :=
  ⟨fun _ _ _ _ _ factors => (⟨0, 0, 1⟩, factors), fun _ _ _ _ => 0⟩

/-- The matrix `J^T * J` of the micro-case, for `J = [skew((1, 0, 0)), -I]`. -/
def microH : Matrix6d :=
  !![0, 0, 0, 0, 0, 0;
     0, 1, 0, 0, 0, -1;
     0, 0, 1, 0, 1, 0;
     0, 0, 0, 1, 0, 0;
     0, 0, 1, 0, 1, 0;
     0, -1, 0, 0, 0, 1]

/-! ## Call sequences of a factor -/

/-- A tree that finds no neighbour. -/
def treeEmpty : TargetTree := ⟨fun _ => none⟩

/-- One call of a member function of a factor, with its arguments. -/
inductive FactorCall where
  | linearize (target source : PointCloud) (target_tree : TargetTree) (T : Isometry3d)
      (source_index : Nat) (rejector : CorrespondenceRejector) (out : LinearizeOut)
  | error (target source : PointCloud) (T : Isometry3d)

/-- The factor after one call: `linearize` updates it, the const member `error` does not. -/
def GICPFactor.step (self : GICPFactor) : FactorCall → GICPFactor
  | .linearize target source target_tree T source_index rejector out =>
    (self.linearize target source target_tree T source_index rejector out).2.1
  | .error _ _ _ => self

/-- The factor after a sequence of calls, first call first. -/
def GICPFactor.run (self : GICPFactor) : List FactorCall → GICPFactor
  | [] => self
  | c :: cs => GICPFactor.run (self.step c) cs

/-! ## Symmetric positive (semi)definite matrices -/

/-- A square matrix is symmetric positive semidefinite. -/
def SymmPosSemidef {n : Nat} (A : Matrix (Fin n) (Fin n) ℚ) : Prop :=
  A.transpose = A ∧ ∀ x : Fin n → ℚ, 0 ≤ Matrix.dotProduct x (A.mulVec x)

/-- A square matrix is symmetric positive definite. -/
def SymmPosDef {n : Nat} (A : Matrix (Fin n) (Fin n) ℚ) : Prop :=
  A.transpose = A ∧ ∀ x : Fin n → ℚ, x ≠ 0 → 0 < Matrix.dotProduct x (A.mulVec x)

/-- The covariances of the cloud are covariance matrices, that is symmetric positive
semidefinite 4x4 matrices, and their 3x3 blocks are symmetric positive definite. -/
def CovarianceCloud (cloud : PointCloud) : Prop :=
  ∀ i, SymmPosSemidef (cloud.cov i) ∧ SymmPosDef (block3 (cloud.cov i))

/-! ## First-order perturbation of a pose -/

/-- The matrix `hat(delta) = [[skew(omega), v], [0, 0]]` of a tangent vector
`delta = [omega; v]`. -/
def se3_hat (delta : Vector6d) : Matrix4d :=
  !![0, -(delta 2), delta 1, delta 3;
     delta 2, 0, -(delta 0), delta 4;
     -(delta 1), delta 0, 0, delta 5;
     0, 0, 0, 0]

/-! ## Inner trials of Levenberg-Marquardt -/

/-- Whether the inner trial with damping `lambda` is accepted: the test `new_e < e` of
`LevenbergMarquardtOptimizer::optimize` for the step computed with this damping. -/
def LevenbergMarquardtOptimizer.trialAccepted (se3_exp : Vector6d → Isometry3d)
    (target source : PointCloud) (reduction : Reduction) (lin : LinearizeOut)
    (factors : List GICPFactor) (result : RegistrationResult) (lambda : ℚ) : Bool :=
  decide (reduction.error target source
    (result.T_target_source.mul (se3_exp (ldlt_solve (lin.H + lambda • (1 : Matrix6d)) (-lin.b))))
    factors < lin.e)

/-! ## Counting successes, and the unconditional Levenberg-Marquardt run -/

/-- The state at the start of outer iteration `k` when the Levenberg-Marquardt body is run `k`
times from the initial state without looking at `converged`. -/
def LevenbergMarquardtOptimizer.stateAt (self : LevenbergMarquardtOptimizer)
    (se3_exp : Vector6d → Isometry3d)
    (target source : PointCloud) (target_tree : TargetTree) (rejector : CorrespondenceRejector)
    (criteria : TerminationCriteria) (reduction : Reduction) (init_T : Isometry3d)
    (factors : List GICPFactor) : Nat → LMState
  | 0 => ⟨self.init_lambda, RegistrationResult.new init_T, factors⟩
  | k + 1 =>
    LevenbergMarquardtOptimizer.body self se3_exp target source target_tree rejector criteria
      reduction k
      (LevenbergMarquardtOptimizer.stateAt self se3_exp target source target_tree rejector
        criteria reduction init_T factors k)

/-! ## The 3x3 form of the Jacobian -/

/-- The top three rows of the matrix `J` of `linearize`. -/
def GICPFactor.jacobian3 (T : Isometry3d) (p : Vector4d) : Matrix (Fin 3) (Fin 6) ℚ :=
  let A : Matrix3d := T.linear * skew (head3 p)
  let B : Matrix3d := -T.linear
  !![A 0 0, A 0 1, A 0 2, B 0 0, B 0 1, B 0 2;
     A 1 0, A 1 1, A 1 2, B 1 0, B 1 1, B 1 2;
     A 2 0, A 2 1, A 2 2, B 2 0, B 2 1, B 2 2]

/-- The 4x3 matrix that pads a 3-vector with a zero homogeneous coordinate. -/
def pad43 : Matrix (Fin 4) (Fin 3) ℚ :=
  !![1, 0, 0;
     0, 1, 0;
     0, 0, 1;
     0, 0, 0]

/-! ## Invariant of the cached weighting -/

/-- The clouds of a `linearize` call have symmetric positive-definite covariance blocks, and
the source covariances are covariance matrices. -/
def FactorCall.Good : FactorCall → Prop
  | .linearize target source _ _ _ _ _ =>
    (∀ j, SymmPosDef (block3 (target.cov j))) ∧ CovarianceCloud source
  | .error _ _ _ => True

/-- The weighting cached by a factor: zero fourth row and column, a symmetric positive
semidefinite 3x3 block, positive definite when a correspondence is cached. -/
def GICPFactor.WeightInv (f : GICPFactor) : Prop :=
  (∀ i, f.mahalanobis 3 i = 0 ∧ f.mahalanobis i 3 = 0) ∧
  SymmPosSemidef (block3 f.mahalanobis) ∧
  (f.target_index ≠ SIZE_MAX → SymmPosDef (block3 f.mahalanobis))

/-! # Theorems -/

/-! ## Matrix lemmas -/

theorem inverse3_eq_inv (A : Matrix3d) : inverse3 A = A⁻¹ := by
  simp [inverse3, Matrix.inv_def]

theorem inverse3_mul_cancel (A : Matrix3d) (h : A.det ≠ 0) :
    inverse3 A * A = 1 ∧ A * inverse3 A = 1 := by
  have hu : IsUnit A.det := isUnit_iff_ne_zero.mpr h
  rw [inverse3_eq_inv]
  exact ⟨Matrix.nonsing_inv_mul A hu, Matrix.mul_nonsing_inv A hu⟩

theorem block3_setBlock3 (M : Matrix4d) (B : Matrix3d) : block3 (setBlock3 M B) = B := by
  ext i j
  fin_cases i <;> fin_cases j <;> simp [block3, setBlock3]

theorem block3_add (A B : Matrix4d) : block3 (A + B) = block3 A + block3 B := by
  ext i j
  fin_cases i <;> fin_cases j <;> simp [block3]

theorem block3_one : block3 1 = 1 := by
  ext i j
  fin_cases i <;> fin_cases j <;> simp [block3, Matrix.one_apply, Matrix.vecHead, Matrix.vecTail]

theorem matrix_Identity : Isometry3d.Identity.matrix = 1 := by
  ext i j
  fin_cases i <;> fin_cases j <;>
    simp [Isometry3d.matrix, Isometry3d.Identity, Matrix.one_apply, Matrix.vecHead,
      Matrix.vecTail]

/-- The 3x3 block of `T.matrix() * C * T.matrix().transpose()` for a covariance `C` whose
fourth row and column are zero. -/
theorem block3_conj (T : Isometry3d) (C : Matrix4d) (hrow : ∀ j, C 3 j = 0)
    (hcol : ∀ i, C i 3 = 0) :
    block3 (T.matrix * C * T.matrix.transpose) = T.linear * block3 C * T.linear.transpose := by
  ext i j
  fin_cases i <;> fin_cases j <;>
    simp [block3, Matrix.mul_apply, Fin.sum_univ_four, Fin.sum_univ_three, hrow, hcol] <;>
    simp [Isometry3d.matrix]

theorem inverse3_diag (a b c : ℚ) (ha : a ≠ 0) (hb : b ≠ 0) (hc : c ≠ 0) :
    inverse3 !![a, 0, 0; 0, b, 0; 0, 0, c] = !![a⁻¹, 0, 0; 0, b⁻¹, 0; 0, 0, c⁻¹] := by
  ext i j
  fin_cases i <;> fin_cases j <;>
    simp [inverse3, Matrix.det_fin_three, Matrix.adjugate_fin_three, Matrix.vecHead,
      Matrix.vecTail] <;> field_simp <;> ring

theorem block3_shiftX :
    block3 (1 + shiftX.matrix * 1 * shiftX.matrix.transpose) = !![3, 0, 0; 0, 2, 0; 0, 0, 2] := by
  ext i j
  fin_cases i <;> fin_cases j <;>
    simp [block3, Matrix.mul_apply, Fin.sum_univ_four, Matrix.one_apply] <;>
    simp [shiftX, Isometry3d.matrix, Matrix.vecHead, Matrix.vecTail] <;> norm_num

theorem apply_Identity (p : Vector4d) : Isometry3d.Identity.apply p = p := by
  ext i
  fin_cases i <;>
    simp [Isometry3d.apply, matrix_Identity]

theorem block3_two :
    block3 (1 + 1 * 1 * Matrix.transpose 1) = !![2, 0, 0; 0, 2, 0; 0, 0, 2] := by
  ext i j
  fin_cases i <;> fin_cases j <;>
    simp [block3, Matrix.one_apply, Matrix.vecHead, Matrix.vecTail] <;> norm_num

theorem vec6_five {α : Type} (a b c d e f : α) : (![a, b, c, d, e, f] : Fin 6 → α) 5 = f := rfl

theorem microH_five (j : Fin 6) : microH 5 j = ![0, -1, 0, 0, 0, 1] j := rfl

theorem inverse3_smul_one (c : ℚ) (hc : c ≠ 0) :
    inverse3 (c • (1 : Matrix3d)) = c⁻¹ • 1 := by
  rw [inverse3_eq_inv]
  apply Matrix.inv_eq_left_inv
  rw [Matrix.smul_mul, Matrix.mul_smul, smul_smul, inv_mul_cancel₀ hc, one_smul, one_mul]

theorem jacobian_micro :
    GICPFactor.jacobian Isometry3d.Identity ![1, 0, 0, 1] =
      !![0, 0, 0, -1, 0, 0;
         0, 0, -1, 0, -1, 0;
         0, 1, 0, 0, 0, -1;
         0, 0, 0, 0, 0, 0] := by
  ext i j
  fin_cases i <;> fin_cases j <;>
    simp [GICPFactor.jacobian, Isometry3d.Identity, skew, head3, Matrix.one_apply,
      Matrix.vecHead, Matrix.vecTail, vec6_five]

theorem H_micro (M : Matrix4d) (c : ℚ) :
    (GICPFactor.jacobian Isometry3d.Identity ![1, 0, 0, 1]).transpose
        * setBlock3 M (c • 1) * GICPFactor.jacobian Isometry3d.Identity ![1, 0, 0, 1]
      = c • microH := by
  rw [jacobian_micro]
  ext i j
  fin_cases i <;> fin_cases j <;>
    simp only [Fin.isValue, Fin.mk_zero, Fin.mk_one, Fin.reduceFinMk, Matrix.smul_apply,
      microH_five] <;>
    simp [Matrix.mul_apply, Fin.sum_univ_four, setBlock3, microH, Matrix.one_apply,
      Matrix.vecHead, Matrix.vecTail, vec6_five]

theorem microH_ne_zero (c : ℚ) (hc : c ≠ 0) : c • microH ≠ 0 := by
  intro h
  have h33 := congrFun (congrFun h 3) 3
  simp [microH] at h33
  exact hc h33

/-! ## The three exits of `linearize` -/

theorem linearize_none (self : GICPFactor) (target source : PointCloud) (target_tree : TargetTree)
    (T : Isometry3d) (source_index : Nat) (rejector : CorrespondenceRejector) (out : LinearizeOut)
    (h : target_tree.knn_search (T.apply (source.point source_index)) = none) :
    self.linearize target source target_tree T source_index rejector out =
      (false, { self with source_index := source_index, target_index := SIZE_MAX }, out) := by
  simp [GICPFactor.linearize, h]

theorem linearize_reject (self : GICPFactor) (target source : PointCloud)
    (target_tree : TargetTree) (T : Isometry3d) (source_index : Nat)
    (rejector : CorrespondenceRejector) (out : LinearizeOut) (k : Nat) (d : ℚ)
    (h : target_tree.knn_search (T.apply (source.point source_index)) = some (k, d))
    (hr : rejector T k source_index d = true) :
    self.linearize target source target_tree T source_index rejector out =
      (false, { self with source_index := source_index, target_index := SIZE_MAX }, out) := by
  simp [GICPFactor.linearize, h, hr]

theorem linearize_accept (self : GICPFactor) (target source : PointCloud)
    (target_tree : TargetTree) (T : Isometry3d) (source_index : Nat)
    (rejector : CorrespondenceRejector) (out : LinearizeOut) (k : Nat) (d : ℚ)
    (h : target_tree.knn_search (T.apply (source.point source_index)) = some (k, d))
    (hr : rejector T k source_index d = false) :
    self.linearize target source target_tree T source_index rejector out =
      (true,
        { target_index := k, source_index := source_index,
          mahalanobis := setBlock3 self.mahalanobis (inverse3 (block3
            (target.cov k + T.matrix * source.cov source_index * T.matrix.transpose))) },
        { H := (GICPFactor.jacobian T (source.point source_index)).transpose *
              setBlock3 self.mahalanobis (inverse3 (block3
                (target.cov k + T.matrix * source.cov source_index * T.matrix.transpose))) *
              GICPFactor.jacobian T (source.point source_index)
          b := ((GICPFactor.jacobian T (source.point source_index)).transpose *
              setBlock3 self.mahalanobis (inverse3 (block3
                (target.cov k + T.matrix * source.cov source_index * T.matrix.transpose)))).mulVec
              (target.point k - T.apply (source.point source_index))
          e := (1 / 2) * Matrix.dotProduct (target.point k - T.apply (source.point source_index))
              ((setBlock3 self.mahalanobis (inverse3 (block3
                (target.cov k + T.matrix * source.cov source_index * T.matrix.transpose)))).mulVec
              (target.point k - T.apply (source.point source_index))) }) := by
  simp [GICPFactor.linearize, h, hr]

/-! ## The contract of the search -/

/-- An index reported by a valid search is not the reserved no-correspondence value. -/
theorem ValidSearch.ne_max {tree : TargetTree} {target : PointCloud}
    (h : ValidSearch tree target) (q : Vector4d) (k : Nat) (d : ℚ)
    (hs : tree.knn_search q = some (k, d)) : k ≠ SIZE_MAX := by
  have := h.2 q k d hs
  have := h.1
  omega

theorem validSearch_treeZero_cloudA : ValidSearch treeZero cloudA := by
  refine ⟨by decide, fun q k d h => ?_⟩
  simp only [treeZero, Option.some.injEq, Prod.mk.injEq] at h
  rw [← h.1]
  decide

/-! ## Rejectors -/

/-- C1: the rejector built by `DistanceRejector(max_dist)` returns true exactly when
`sq_dist > max_dist ^ 2`, whatever the pose and the indices are; a candidate at exactly
`sq_dist = max_dist ^ 2` is not rejected. -/
theorem DistanceRejector_call_iff (max_dist sq_dist : ℚ) (T : Isometry3d)
    (target_index source_index : Nat) :
    ((DistanceRejector.new max_dist).call T target_index source_index sq_dist = true
        ↔ sq_dist > max_dist ^ 2) ∧
      (DistanceRejector.new max_dist).call T target_index source_index (max_dist ^ 2) = false := by
  simp [DistanceRejector.call, DistanceRejector.new, pow_two]

/-- C2: `NullRejector` returns false for every pose, target index, source index and squared
distance. -/
theorem NullRejector_call_false (r : NullRejector) (T : Isometry3d)
    (target_index source_index : Nat) (sq_dist : ℚ) :
    r.call T target_index source_index sq_dist = false := by
  rfl

/-! ## The factor -/

/-- C3: for every factor state and every call of `linearize` (any source, pose, source index
and rejector) on a target cloud whose search reports valid indices of the cloud, after the call
`inlier()` is false exactly when `linearize` returned failure, `target_index` is the
no-correspondence value in exactly that case, failure happens exactly when no neighbour was
found or the rejector rejected the candidate, and on success `target_index` is the index that
the search reported. -/
theorem linearize_inlier_iff (self : GICPFactor) (target source : PointCloud)
    (target_tree : TargetTree) (T : Isometry3d) (source_index : Nat)
    (rejector : CorrespondenceRejector) (out : LinearizeOut)
    (hv : ValidSearch target_tree target) :
    ((self.linearize target source target_tree T source_index rejector out).2.1.inlier = false ↔
      (self.linearize target source target_tree T source_index rejector out).1 = false) ∧
    ((self.linearize target source target_tree T source_index rejector out).2.1.target_index
        = SIZE_MAX ↔
      (self.linearize target source target_tree T source_index rejector out).1 = false) ∧
    ((self.linearize target source target_tree T source_index rejector out).1 = false ↔
      (target_tree.knn_search (T.apply (source.point source_index)) = none ∨
        ∃ k d, target_tree.knn_search (T.apply (source.point source_index)) = some (k, d) ∧
          rejector T k source_index d = true)) ∧
    ((self.linearize target source target_tree T source_index rejector out).1 = true →
      ∃ k d, target_tree.knn_search (T.apply (source.point source_index)) = some (k, d) ∧
        (self.linearize target source target_tree T source_index rejector out).2.1.target_index
          = k) := by
  cases hs : target_tree.knn_search (T.apply (source.point source_index)) with
  | none => simp [linearize_none _ _ _ _ _ _ _ _ hs, GICPFactor.inlier]
  | some kd =>
    obtain ⟨k, d⟩ := kd
    cases hr : rejector T k source_index d with
    | true => 
      simp [linearize_reject _ _ _ _ _ _ _ _ k d hs hr, GICPFactor.inlier]
      exact ⟨k, d, ⟨rfl, rfl⟩, hr⟩
    | false =>
      have := ValidSearch.ne_max hv _ k d hs
      simp [linearize_accept _ _ _ _ _ _ _ _ k d hs hr, GICPFactor.inlier, this, hr]

theorem linearize_inlier_iff_witness :
    ValidSearch treeZero cloudA ∧
    ((GICPFactor.new.linearize cloudA cloudB treeZero Isometry3d.Identity 0
        (NullRejector.call {}) out0).2.1.inlier = false ↔
      (GICPFactor.new.linearize cloudA cloudB treeZero Isometry3d.Identity 0
        (NullRejector.call {}) out0).1 = false) :=
  ⟨validSearch_treeZero_cloudA, (linearize_inlier_iff GICPFactor.new cloudA cloudB treeZero
    Isometry3d.Identity 0 (NullRejector.call {}) out0 validSearch_treeZero_cloudA).1⟩

/-- The 3x3 block that a successful `linearize` caches, for a source covariance with zero
fourth row and column. -/
theorem linearize_block3_mahalanobis (self : GICPFactor) (target source : PointCloud)
    (target_tree : TargetTree)
    (T : Isometry3d) (source_index : Nat) (rejector : CorrespondenceRejector)
    (out : LinearizeOut)
    (hok : (self.linearize target source target_tree T source_index rejector out).1 = true)
    (hrow : ∀ j, source.cov source_index 3 j = 0)
    (hcol : ∀ i, source.cov source_index i 3 = 0) :
    block3 (self.linearize target source target_tree T source_index rejector out).2.1.mahalanobis
      = (block3 (target.cov
            (self.linearize target source target_tree T source_index rejector out).2.1.target_index)
          + T.linear * block3 (source.cov source_index) * T.linear.transpose)⁻¹ := by
  cases hs : target_tree.knn_search (T.apply (source.point source_index)) with
  | none => simp [linearize_none _ _ _ _ _ _ _ _ hs] at hok
  | some kd =>
    obtain ⟨k, d⟩ := kd
    cases hr : rejector T k source_index d with
    | true => simp [linearize_reject _ _ _ _ _ _ _ _ k d hs hr] at hok
    | false =>
      simp only [linearize_accept _ _ _ _ _ _ _ _ k d hs hr, block3_setBlock3, block3_add,
        block3_conj T _ hrow hcol, inverse3_eq_inv]

/-- C4 (as stated, refuted): with the 4x4 identity as covariance and a pose that translates by
`(1, 0, 0)`, the cached 3x3 block is not the inverse of
`cov_target[j] + R * cov_source[i] * R^T`: the translation enters the weighting. -/
theorem linearize_mahalanobis_counterexample :
    (GICPFactor.new.linearize cloudB cloudB treeZero shiftX 0 (NullRejector.call {}) out0).1
      = true ∧
    block3 (GICPFactor.new.linearize cloudB cloudB treeZero shiftX 0
        (NullRejector.call {}) out0).2.1.mahalanobis
      ≠ (block3 (cloudB.cov (GICPFactor.new.linearize cloudB cloudB treeZero shiftX 0
            (NullRejector.call {}) out0).2.1.target_index)
          + shiftX.linear * block3 (cloudB.cov 0) * shiftX.linear.transpose)⁻¹ := by
  have hs : treeZero.knn_search (shiftX.apply (cloudB.point 0)) = some (0, 1) := rfl
  have hr : (NullRejector.call {}) shiftX 0 0 1 = false := rfl
  rw [linearize_accept _ _ _ _ _ _ _ _ 0 1 hs hr]
  refine ⟨rfl, ?_⟩
  intro h
  have h00 := congrFun (congrFun h 0) 0
  rw [← inverse3_eq_inv] at h00
  have hR : block3 (cloudB.cov 0) + shiftX.linear * block3 (cloudB.cov 0)
      * shiftX.linear.transpose = !![2, 0, 0; 0, 2, 0; 0, 0, 2] := by
    ext i j
    fin_cases i <;> fin_cases j <;>
      simp [cloudB, shiftX, block3, Matrix.one_apply, Matrix.vecHead, Matrix.vecTail] <;>
      norm_num
  simp only [block3_setBlock3] at h00
  rw [hR] at h00
  simp only [cloudB] at h00
  rw [block3_shiftX, inverse3_diag _ _ _ (by norm_num) (by norm_num) (by norm_num),
    inverse3_diag _ _ _ (by norm_num) (by norm_num) (by norm_num)] at h00
  norm_num at h00

/-- C4 (amended): for every successful `linearize` at pose `T` with correspondence `(i, j)`,
if the fourth row and the fourth column of `cov_source[i]` are zero, the top-left 3x3 block of
the cached `mahalanobis` is the inverse of the top-left 3x3 block of
`cov_target[j] + R * cov_source[i] * R^T` with `R` the rotation block of `T` (a two-sided
inverse when that block is invertible); so a successful call at any pose with the same
rotation and the same correspondence caches the same block. -/
theorem linearize_mahalanobis_block (self : GICPFactor) (target source : PointCloud)
    (target_tree : TargetTree) (T : Isometry3d) (source_index : Nat)
    (rejector : CorrespondenceRejector) (out : LinearizeOut)
    (hok : (self.linearize target source target_tree T source_index rejector out).1 = true)
    (hrow : ∀ j, source.cov source_index 3 j = 0)
    (hcol : ∀ i, source.cov source_index i 3 = 0) :
    block3 (self.linearize target source target_tree T source_index rejector out).2.1.mahalanobis
      = (block3 (target.cov
            (self.linearize target source target_tree T source_index rejector out).2.1.target_index)
          + T.linear * block3 (source.cov source_index) * T.linear.transpose)⁻¹ ∧
    ((block3 (target.cov
            (self.linearize target source target_tree T source_index rejector out).2.1.target_index)
          + T.linear * block3 (source.cov source_index) * T.linear.transpose).det ≠ 0 →
      block3 (self.linearize target source target_tree T source_index rejector
          out).2.1.mahalanobis
        * (block3 (target.cov
            (self.linearize target source target_tree T source_index rejector out).2.1.target_index)
          + T.linear * block3 (source.cov source_index) * T.linear.transpose) = 1 ∧
      (block3 (target.cov
            (self.linearize target source target_tree T source_index rejector out).2.1.target_index)
          + T.linear * block3 (source.cov source_index) * T.linear.transpose)
        * block3 (self.linearize target source target_tree T source_index rejector
          out).2.1.mahalanobis = 1) ∧
    (∀ (self2 : GICPFactor) (T2 : Isometry3d) (out2 : LinearizeOut),
      T2.linear = T.linear →
      (self2.linearize target source target_tree T2 source_index rejector out2).1 = true →
      (self2.linearize target source target_tree T2 source_index rejector out2).2.1.target_index
        = (self.linearize target source target_tree T source_index rejector out).2.1.target_index →
      block3 (self2.linearize target source target_tree T2 source_index rejector
          out2).2.1.mahalanobis
        = block3 (self.linearize target source target_tree T source_index rejector
          out).2.1.mahalanobis) := by
  have h1 := linearize_block3_mahalanobis self target source target_tree T source_index rejector
    out hok hrow hcol
  refine ⟨h1, ?_, ?_⟩
  · intro hdet
    have hu := isUnit_iff_ne_zero.mpr hdet
    rw [h1]
    exact ⟨Matrix.nonsing_inv_mul _ hu, Matrix.mul_nonsing_inv _ hu⟩
  · intro self2 T2 out2 hT hok2 hidx
    rw [h1, linearize_block3_mahalanobis self2 target source target_tree T2 source_index
      rejector out2 hok2 hrow hcol, hT, hidx]

theorem linearize_mahalanobis_block_witness :
    (GICPFactor.new.linearize cloudP cloudP treeZero shiftX 0 (NullRejector.call {}) out0).1
      = true ∧
    (∀ j, cloudP.cov 0 3 j = 0) ∧ (∀ i, cloudP.cov 0 i 3 = 0) ∧
    block3 (GICPFactor.new.linearize cloudP cloudP treeZero shiftX 0
        (NullRejector.call {}) out0).2.1.mahalanobis
      = (block3 (cloudP.cov (GICPFactor.new.linearize cloudP cloudP treeZero shiftX 0
            (NullRejector.call {}) out0).2.1.target_index)
          + shiftX.linear * block3 (cloudP.cov 0) * shiftX.linear.transpose)⁻¹ := by
  have hok : (GICPFactor.new.linearize cloudP cloudP treeZero shiftX 0
      (NullRejector.call {}) out0).1 = true := by
    simp [GICPFactor.linearize, treeZero, NullRejector.call]
  have hrow : ∀ j, cloudP.cov 0 3 j = 0 := by
    intro j
    fin_cases j <;> simp [cloudP, Matrix.vecHead, Matrix.vecTail]
  have hcol : ∀ i, cloudP.cov 0 i 3 = 0 := by
    intro i
    fin_cases i <;> simp [cloudP, Matrix.vecHead, Matrix.vecTail]
  exact ⟨hok, hrow, hcol, (linearize_mahalanobis_block GICPFactor.new cloudP cloudP treeZero
    shiftX 0 (NullRejector.call {}) out0 hok hrow hcol).1⟩

/-- C5: `error(target, source, T2)` returns 0 when the factor has no cached correspondence, and
otherwise `0.5 * r^T * W * r` with `r = point_target[j] - T2 * point_source[i]` for the cached
`i`, `j` and `W`; and for every successful `linearize` at pose `T` on a target cloud whose
search reports valid indices of the cloud, `error` at the same pose returns exactly the cost
`e` that `linearize` wrote. -/
theorem error_cached (f : GICPFactor) (target source : PointCloud) (T2 : Isometry3d)
    (self : GICPFactor) (target_tree : TargetTree)
    (T : Isometry3d) (source_index : Nat) (rejector : CorrespondenceRejector)
    (out : LinearizeOut)
    (hok : (self.linearize target source target_tree T source_index rejector out).1 = true)
    (hv : ValidSearch target_tree target) :
    (f.target_index = SIZE_MAX → f.error target source T2 = 0) ∧
    (f.target_index ≠ SIZE_MAX → f.error target source T2 =
      (1 / 2) * Matrix.dotProduct
        (target.point f.target_index - T2.apply (source.point f.source_index))
        (f.mahalanobis.mulVec
          (target.point f.target_index - T2.apply (source.point f.source_index)))) ∧
    (self.linearize target source target_tree T source_index rejector out).2.1.error
        target source T
      = (self.linearize target source target_tree T source_index rejector out).2.2.e := by
  refine ⟨fun h => by simp [GICPFactor.error, h], fun h => by simp [GICPFactor.error, h], ?_⟩
  cases hs : target_tree.knn_search (T.apply (source.point source_index)) with
  | none => simp [linearize_none _ _ _ _ _ _ _ _ hs] at hok
  | some kd =>
    obtain ⟨k, d⟩ := kd
    cases hr : rejector T k source_index d with
    | true => simp [linearize_reject _ _ _ _ _ _ _ _ k d hs hr] at hok
    | false =>
      rw [linearize_accept _ _ _ _ _ _ _ _ k d hs hr]
      simp only [GICPFactor.error]
      rw [if_neg (ValidSearch.ne_max hv _ k d hs)]

theorem error_cached_witness :
    (GICPFactor.new.linearize cloudA cloudB treeZero Isometry3d.Identity 0
        (NullRejector.call {}) out0).1 = true ∧
    ValidSearch treeZero cloudA ∧
    (GICPFactor.new.linearize cloudA cloudB treeZero Isometry3d.Identity 0
        (NullRejector.call {}) out0).2.1.error cloudA cloudB Isometry3d.Identity
      = (GICPFactor.new.linearize cloudA cloudB treeZero Isometry3d.Identity 0
        (NullRejector.call {}) out0).2.2.e := by
  have hok : (GICPFactor.new.linearize cloudA cloudB treeZero Isometry3d.Identity 0
      (NullRejector.call {}) out0).1 = true := by
    simp [GICPFactor.linearize, treeZero, NullRejector.call]
  exact ⟨hok, validSearch_treeZero_cloudA, (error_cached GICPFactor.new cloudA cloudB
    Isometry3d.Identity GICPFactor.new treeZero Isometry3d.Identity 0 (NullRejector.call {})
    out0 hok validSearch_treeZero_cloudA).2.2⟩

/-! ## The micro-case -/

/-- The micro-case: what `linearize` returns and writes. -/
theorem linearize_micro (f : GICPFactor) (target source : PointCloud) (tree : TargetTree)
    (rejector : CorrespondenceRejector) (out : LinearizeOut) (eps : ℚ) (j : Nat) (d : ℚ)
    (heps : 0 < eps) (hsrc : source.point 0 = ![1, 0, 0, 1])
    (hs : tree.knn_search (Isometry3d.Identity.apply (source.point 0)) = some (j, d))
    (htgt : target.point j = ![1, 0, 0, 1])
    (hct : block3 (target.cov j) = eps • 1) (hcs : block3 (source.cov 0) = eps • 1)
    (hrej : rejector Isometry3d.Identity j 0 d = false) :
    f.linearize target source tree Isometry3d.Identity 0 rejector out =
      (true, ⟨j, 0, setBlock3 f.mahalanobis ((2 * eps)⁻¹ • 1)⟩,
        ⟨(2 * eps)⁻¹ • microH, 0, 0⟩) := by
  have hblock : inverse3 (block3 (target.cov j + Isometry3d.Identity.matrix * source.cov 0
      * Isometry3d.Identity.matrix.transpose)) = (2 * eps)⁻¹ • 1 := by
    rw [matrix_Identity, Matrix.transpose_one, Matrix.mul_one, Matrix.one_mul, block3_add, hct,
      hcs, ← add_smul, ← two_mul, inverse3_smul_one _ (by positivity)]
  rw [linearize_accept _ _ _ _ _ _ _ _ j d hs hrej, hblock, apply_Identity, hsrc, htgt, H_micro]
  simp

/-! ## A cloud matched against itself at the identity pose -/

theorem sq_dist_self (a : Vector4d) : sq_dist a a = 0 := by
  simp [sq_dist]

theorem sq_dist_nonneg (a b : Vector4d) : 0 ≤ sq_dist a b := by
  simp only [sq_dist, Matrix.dotProduct]
  exact Finset.sum_nonneg (fun i _ => mul_self_nonneg _)

theorem eq_of_sq_dist_eq_zero (a b : Vector4d) (h : sq_dist a b = 0) : a = b := by
  simp only [sq_dist] at h
  have := Matrix.dotProduct_self_eq_zero.mp h
  exact sub_eq_zero.mp this

theorem ldlt_solve_zero (A : Matrix6d) : ldlt_solve A (-0) = 0 := by
  simp [ldlt_solve]

theorem mul_Identity (T : Isometry3d) : T.mul Isometry3d.Identity = T := by
  simp [Isometry3d.mul, Isometry3d.Identity]

/-- With an exact search over the cloud itself and the identity pose, the factor of a valid
source index finds a point equal to its own and is accepted. -/
theorem linearize_same_cloud (cloud : PointCloud) (tree : TargetTree)
    (rejector : CorrespondenceRejector) (hexact : ExactSearch tree cloud)
    (hrej : ∀ T i j, rejector T i j 0 = false) (i : Nat) (hi : i < cloud.size)
    (f : GICPFactor) (out : LinearizeOut) :
    (f.linearize cloud cloud tree Isometry3d.Identity i rejector out).1 = true ∧
    cloud.point (f.linearize cloud cloud tree Isometry3d.Identity i rejector out).2.1.target_index
      - Isometry3d.Identity.apply (cloud.point i) = 0 ∧
    (f.linearize cloud cloud tree Isometry3d.Identity i rejector out).2.1.source_index = i ∧
    (f.linearize cloud cloud tree Isometry3d.Identity i rejector out).2.2.b = 0 ∧
    (f.linearize cloud cloud tree Isometry3d.Identity i rejector out).2.2.e = 0 ∧
    (f.linearize cloud cloud tree Isometry3d.Identity i rejector out).2.1.error cloud cloud
      Isometry3d.Identity = 0 := by
  obtain ⟨hsome, hval⟩ := hexact (Isometry3d.Identity.apply (cloud.point i))
  have hpos : 0 < cloud.size := Nat.lt_of_le_of_lt (Nat.zero_le _) hi
  cases hs : tree.knn_search (Isometry3d.Identity.apply (cloud.point i)) with
  | none => simp [hs] at hsome; exact absurd hpos (by omega)
  | some kd =>
    obtain ⟨k, d⟩ := kd
    obtain ⟨_, hd, hmin⟩ := hval k d hs
    have hd0 : d = 0 := by
      have h1 := hmin i hi
      rw [apply_Identity, sq_dist_self] at h1
      have h2 := sq_dist_nonneg (cloud.point k) (Isometry3d.Identity.apply (cloud.point i))
      rw [← hd] at h2
      exact le_antisymm h1 h2
    have hpt : cloud.point k = cloud.point i := by
      apply eq_of_sq_dist_eq_zero
      rw [hd0, apply_Identity] at hd
      exact hd.symm
    have hr : rejector Isometry3d.Identity k i d = false := by rw [hd0]; exact hrej _ _ _
    rw [linearize_accept _ _ _ _ _ _ _ _ k d hs hr]
    simp [apply_Identity, hpt, GICPFactor.error]

theorem linearizeLoop_b_e (target source : PointCloud) (tree : TargetTree)
    (rejector : CorrespondenceRejector) (T : Isometry3d) :
    ∀ (fs : List GICPFactor) (i : Nat) (sum : LinearizeOut),
      (∀ m, m < fs.length → ∀ (f : GICPFactor) (out : LinearizeOut),
        (f.linearize target source tree T (i + m) rejector out).2.2.b = 0 ∧
        (f.linearize target source tree T (i + m) rejector out).2.2.e = 0) →
      (SerialReduction.linearizeLoop target source tree rejector T i fs sum).1.b = sum.b ∧
      (SerialReduction.linearizeLoop target source tree rejector T i fs sum).1.e = sum.e := by
  intro fs
  induction fs with
  | nil => intro i sum _; simp [SerialReduction.linearizeLoop]
  | cons f fs ih =>
    intro i sum h
    have h0 := h 0 (by simp) f ⟨0, 0, 0⟩
    have hrest := ih (i + 1)
      (if (f.linearize target source tree T i rejector ⟨0, 0, 0⟩).1 then
        ⟨sum.H + (f.linearize target source tree T i rejector ⟨0, 0, 0⟩).2.2.H,
          sum.b + (f.linearize target source tree T i rejector ⟨0, 0, 0⟩).2.2.b,
          sum.e + (f.linearize target source tree T i rejector ⟨0, 0, 0⟩).2.2.e⟩
       else sum)
      (fun m hm f2 out => by
        have := h (m + 1) (by simp; omega) f2 out
        rwa [show i + (m + 1) = i + 1 + m by omega] at this)
    simp only [SerialReduction.linearizeLoop]
    rw [hrest.1, hrest.2]
    simp only [Nat.add_zero] at h0
    split <;> simp [h0.1, h0.2]

theorem linearizeLoop_length (target source : PointCloud) (tree : TargetTree)
    (rejector : CorrespondenceRejector) (T : Isometry3d) :
    ∀ (fs : List GICPFactor) (i : Nat) (sum : LinearizeOut),
      (SerialReduction.linearizeLoop target source tree rejector T i fs sum).2.length
        = fs.length := by
  intro fs
  induction fs with
  | nil => intro i sum; simp [SerialReduction.linearizeLoop]
  | cons f fs ih => intro i sum; simp [SerialReduction.linearizeLoop, ih]

theorem linearizeLoop_error (target source : PointCloud) (tree : TargetTree)
    (rejector : CorrespondenceRejector) (T T2 : Isometry3d) :
    ∀ (fs : List GICPFactor) (i : Nat) (sum : LinearizeOut),
      (∀ m, m < fs.length → ∀ (f : GICPFactor) (out : LinearizeOut),
        (f.linearize target source tree T (i + m) rejector out).2.1.error target source T2
          = 0) →
      SerialReduction.error target source T2
        (SerialReduction.linearizeLoop target source tree rejector T i fs sum).2 = 0 := by
  intro fs
  induction fs with
  | nil => intro i sum _; simp [SerialReduction.linearizeLoop, SerialReduction.error]
  | cons f fs ih =>
    intro i sum h
    have h0 := h 0 (by simp) f ⟨0, 0, 0⟩
    simp only [Nat.add_zero] at h0
    simp only [SerialReduction.linearizeLoop, SerialReduction.error, h0, zero_add]
    apply ih
    intro m hm f2 out
    have := h (m + 1) (by simp; omega) f2 out
    rwa [show i + (m + 1) = i + 1 + m by omega] at this

theorem gn_loop_of_converged (self : GaussNewtonOptimizer) (se3_exp : Vector6d → Isometry3d)
    (target source : PointCloud) (target_tree : TargetTree) (rejector : CorrespondenceRejector)
    (criteria : TerminationCriteria) (reduction : Reduction) (fuel i : Nat) (st : OptState)
    (h : st.result.converged = true) :
    GaussNewtonOptimizer.loop self se3_exp target source target_tree rejector criteria reduction
      fuel i st = (st, 0) := by
  cases fuel with
  | zero => rfl
  | succ n => simp [GaussNewtonOptimizer.loop, h]

/-- The summed `b` and `e` of the serial reduction over a cloud matched against itself at the
identity pose. -/
theorem serial_linearize_same_cloud (cloud : PointCloud) (tree : TargetTree)
    (rejector : CorrespondenceRejector) (hexact : ExactSearch tree cloud)
    (hrej : ∀ T i j, rejector T i j 0 = false) (factors : List GICPFactor)
    (hlen : factors.length ≤ cloud.size) :
    (serialReduction.linearize cloud cloud tree rejector Isometry3d.Identity factors).1.b = 0 ∧
    (serialReduction.linearize cloud cloud tree rejector Isometry3d.Identity factors).1.e = 0 ∧
    serialReduction.error cloud cloud Isometry3d.Identity
      (serialReduction.linearize cloud cloud tree rejector Isometry3d.Identity factors).2 = 0 ∧
    (serialReduction.linearize cloud cloud tree rejector Isometry3d.Identity factors).2.length
      = factors.length := by
  have hb := linearizeLoop_b_e cloud cloud tree rejector Isometry3d.Identity factors 0 ⟨0, 0, 0⟩
    (fun m hm f out => by
      have := linearize_same_cloud cloud tree rejector hexact hrej (0 + m) (by omega) f out
      exact ⟨this.2.2.2.1, this.2.2.2.2.1⟩)
  have he := linearizeLoop_error cloud cloud tree rejector Isometry3d.Identity
    Isometry3d.Identity factors 0 ⟨0, 0, 0⟩
    (fun m hm f out =>
      (linearize_same_cloud cloud tree rejector hexact hrej (0 + m) (by omega) f out).2.2.2.2.2)
  exact ⟨hb.1, hb.2, he, linearizeLoop_length _ _ _ _ _ _ _ _⟩

theorem lm_inner_reject (self : LevenbergMarquardtOptimizer) (se3_exp : Vector6d → Isometry3d)
    (target source : PointCloud) (criteria : TerminationCriteria) (reduction : Reduction)
    (lin : LinearizeOut) (factors : List GICPFactor) (result : RegistrationResult)
    (hb : lin.b = 0) (he : lin.e = 0) (hexp : se3_exp 0 = Isometry3d.Identity)
    (herr : reduction.error target source result.T_target_source factors = 0) :
    ∀ (fuel : Nat) (lambda : ℚ),
      LevenbergMarquardtOptimizer.inner self se3_exp target source criteria reduction lin
        factors fuel lambda result = (lambda * self.lambda_factor ^ fuel, result, false) := by
  intro fuel
  induction fuel with
  | zero => intro lambda; simp [LevenbergMarquardtOptimizer.inner]
  | succ n ih =>
    intro lambda
    simp only [LevenbergMarquardtOptimizer.inner, hb, ldlt_solve_zero, hexp, mul_Identity, herr,
      he, lt_self_iff_false, if_false, ih]
    rw [pow_succ]
    congr 1
    ring

/-- The invariant of the Levenberg-Marquardt loop over a cloud matched against itself. -/
theorem lm_body_same_cloud (self : LevenbergMarquardtOptimizer)
    (se3_exp : Vector6d → Isometry3d) (cloud : PointCloud) (tree : TargetTree)
    (rejector : CorrespondenceRejector) (criteria : TerminationCriteria)
    (hexact : ExactSearch tree cloud) (hrej : ∀ T i j, rejector T i j 0 = false)
    (hexp : se3_exp 0 = Isometry3d.Identity) (i : Nat) (st : LMState)
    (hT : st.result.T_target_source = Isometry3d.Identity)
    (hlen : st.factors.length ≤ cloud.size) :
    (LevenbergMarquardtOptimizer.body self se3_exp cloud cloud tree rejector criteria
      serialReduction i st).result.T_target_source = Isometry3d.Identity ∧
    (LevenbergMarquardtOptimizer.body self se3_exp cloud cloud tree rejector criteria
      serialReduction i st).result.converged = st.result.converged ∧
    (LevenbergMarquardtOptimizer.body self se3_exp cloud cloud tree rejector criteria
      serialReduction i st).result.iterations = i ∧
    (LevenbergMarquardtOptimizer.body self se3_exp cloud cloud tree rejector criteria
      serialReduction i st).result.error = 0 ∧
    (LevenbergMarquardtOptimizer.body self se3_exp cloud cloud tree rejector criteria
      serialReduction i st).factors.length ≤ cloud.size ∧
    (LevenbergMarquardtOptimizer.body self se3_exp cloud cloud tree rejector criteria
      serialReduction i st).lambda
      = st.lambda * self.lambda_factor ^ self.max_inner_iterations.toNat := by
  have hser := serial_linearize_same_cloud cloud tree rejector hexact hrej st.factors hlen
  have hin := lm_inner_reject self se3_exp cloud cloud criteria serialReduction
    (serialReduction.linearize cloud cloud tree rejector Isometry3d.Identity st.factors).1
    (serialReduction.linearize cloud cloud tree rejector Isometry3d.Identity st.factors).2
    st.result hser.1 hser.2.1 hexp (by rw [hT]; exact hser.2.2.1)
    self.max_inner_iterations.toNat st.lambda
  simp only [LevenbergMarquardtOptimizer.body, hT, hin, hser.2.1, hser.2.2.2]
  exact ⟨trivial, trivial, trivial, trivial, hlen, trivial⟩

theorem lm_loop_same_cloud (self : LevenbergMarquardtOptimizer)
    (se3_exp : Vector6d → Isometry3d) (cloud : PointCloud) (tree : TargetTree)
    (rejector : CorrespondenceRejector) (criteria : TerminationCriteria)
    (hexact : ExactSearch tree cloud) (hrej : ∀ T i j, rejector T i j 0 = false)
    (hexp : se3_exp 0 = Isometry3d.Identity) :
    ∀ (fuel i : Nat) (st : LMState),
      st.result.T_target_source = Isometry3d.Identity → st.result.converged = false →
      st.factors.length ≤ cloud.size →
      (LevenbergMarquardtOptimizer.loop self se3_exp cloud cloud tree rejector criteria
        serialReduction fuel i st).result.T_target_source = Isometry3d.Identity ∧
      (LevenbergMarquardtOptimizer.loop self se3_exp cloud cloud tree rejector criteria
        serialReduction fuel i st).result.converged = false ∧
      (0 < fuel →
        (LevenbergMarquardtOptimizer.loop self se3_exp cloud cloud tree rejector criteria
          serialReduction fuel i st).result.iterations = i + fuel - 1 ∧
        (LevenbergMarquardtOptimizer.loop self se3_exp cloud cloud tree rejector criteria
          serialReduction fuel i st).result.error = 0) := by
  intro fuel
  induction fuel with
  | zero => intro i st hT hc _; exact ⟨hT, hc, fun h => absurd h (by omega)⟩
  | succ n ih =>
    intro i st hT hc hlen
    have hb := lm_body_same_cloud self se3_exp cloud tree rejector criteria hexact hrej hexp i st
      hT hlen
    have hrec := ih (i + 1) _ hb.1 (hb.2.1.trans hc) hb.2.2.2.2.1
    simp only [LevenbergMarquardtOptimizer.loop, hc, Bool.false_eq_true, if_false]
    refine ⟨hrec.1, hrec.2.1, fun _ => ?_⟩
    cases n with
    | zero =>
      simp only [LevenbergMarquardtOptimizer.loop]
      exact ⟨by rw [hb.2.2.1]; omega, hb.2.2.2.1⟩
    | succ m =>
      have := hrec.2.2 (by omega)
      exact ⟨by rw [this.1]; omega, this.2⟩

theorem lm_optimize_same_cloud (self : LevenbergMarquardtOptimizer)
    (se3_exp : Vector6d → Isometry3d) (cloud : PointCloud) (tree : TargetTree)
    (rejector : CorrespondenceRejector) (criteria : TerminationCriteria)
    (factors : List GICPFactor) (hmax : 1 ≤ self.max_iterations)
    (hexact : ExactSearch tree cloud) (hrej : ∀ T i j, rejector T i j 0 = false)
    (hexp : se3_exp 0 = Isometry3d.Identity) (hlen : factors.length ≤ cloud.size) :
    (self.optimize se3_exp cloud cloud tree rejector criteria serialReduction
      Isometry3d.Identity factors).1.converged = false ∧
    (self.optimize se3_exp cloud cloud tree rejector criteria serialReduction
      Isometry3d.Identity factors).1.iterations = self.max_iterations.toNat - 1 ∧
    (self.optimize se3_exp cloud cloud tree rejector criteria serialReduction
      Isometry3d.Identity factors).1.T_target_source = Isometry3d.Identity ∧
    (self.optimize se3_exp cloud cloud tree rejector criteria serialReduction
      Isometry3d.Identity factors).1.error = 0 := by
  have h := lm_loop_same_cloud self se3_exp cloud tree rejector criteria hexact hrej hexp
    self.max_iterations.toNat 0 ⟨self.init_lambda, RegistrationResult.new Isometry3d.Identity,
      factors⟩ rfl rfl hlen
  have h2 := h.2.2 (by omega)
  simp only [LevenbergMarquardtOptimizer.optimize]
  exact ⟨h.2.1, by rw [h2.1]; omega, h.1, h2.2⟩

/-! ## Facts about the concrete inputs -/

theorem exactSearch_treeB : ExactSearch treeB cloudB := by
  intro q
  refine ⟨fun _ => rfl, fun k d h => ?_⟩
  simp only [treeB, Option.some.injEq, Prod.mk.injEq] at h
  obtain ⟨rfl, rfl⟩ := h
  exact ⟨by decide, rfl, fun j _ => le_refl _⟩

theorem se3_exp_lin_zero : se3_exp_lin 0 = Isometry3d.Identity := by
  have hs : skew (0 : Vector3d) = 0 := by
    ext i j
    fin_cases i <;> fin_cases j <;> simp [skew, Matrix.vecHead, Matrix.vecTail]
  have ht : (![0, 0, 0] : Vector3d) = 0 := by
    ext i
    fin_cases i <;> simp [Matrix.vecHead, Matrix.vecTail]
  simp [se3_exp_lin, Isometry3d.Identity, hs, ht]

theorem cov_cloudB_invertible : ∀ i j, i < cloudB.size → j < cloudB.size →
    (block3 (cloudB.cov j + Isometry3d.Identity.matrix * cloudB.cov i
      * Isometry3d.Identity.matrix.transpose)).det ≠ 0 := by
  intro i j _ _
  simp only [cloudB, matrix_Identity, block3_two]
  simp [Matrix.det_fin_three]

/-! ## The optimizers on a cloud matched against itself -/

/-- C6: for `GaussNewtonOptimizer::optimize` with `max_iterations >= 1` and `lambda != 0`, a
cloud matched against itself (one factor per source index, none beyond the cloud), the identity
initial pose, an exact search, a rejector that accepts squared distance 0, invertible combined
covariances, criteria that accept the zero step and `se3_exp(0)` the identity: at the first
linearization every factor succeeds with residual 0 and cost 0, the summed `b` is 0, the step
`delta` is 0, and the result has `converged = true`, `iterations = 0`, `error = 0` and the
identity pose. -/
theorem gauss_newton_same_cloud (self : GaussNewtonOptimizer) (se3_exp : Vector6d → Isometry3d)
    (cloud : PointCloud) (tree : TargetTree) (rejector : CorrespondenceRejector)
    (criteria : TerminationCriteria) (factors : List GICPFactor)
    (hmax : 1 ≤ self.max_iterations) (_hlambda : self.lambda ≠ 0)
    (hexact : ExactSearch tree cloud) (hrej : ∀ T i j, rejector T i j 0 = false)
    (_hcov : ∀ i j, i < cloud.size → j < cloud.size →
      (block3 (cloud.cov j + Isometry3d.Identity.matrix * cloud.cov i
        * Isometry3d.Identity.matrix.transpose)).det ≠ 0)
    (hcrit : criteria.converged 0 = true) (hexp : se3_exp 0 = Isometry3d.Identity)
    (hlen : factors.length ≤ cloud.size) :
    (∀ i (hi : i < factors.length) (out : LinearizeOut),
      ((factors.get ⟨i, hi⟩).linearize cloud cloud tree Isometry3d.Identity i rejector out).1
        = true ∧
      cloud.point ((factors.get ⟨i, hi⟩).linearize cloud cloud tree Isometry3d.Identity i
          rejector out).2.1.target_index - Isometry3d.Identity.apply (cloud.point i) = 0 ∧
      ((factors.get ⟨i, hi⟩).linearize cloud cloud tree Isometry3d.Identity i rejector
        out).2.2.e = 0) ∧
    (serialReduction.linearize cloud cloud tree rejector Isometry3d.Identity factors).1.b = 0 ∧
    self.delta cloud cloud tree rejector serialReduction
      ⟨RegistrationResult.new Isometry3d.Identity, factors⟩ = 0 ∧
    (self.optimize se3_exp cloud cloud tree rejector criteria serialReduction
      Isometry3d.Identity factors).1.converged = true ∧
    (self.optimize se3_exp cloud cloud tree rejector criteria serialReduction
      Isometry3d.Identity factors).1.iterations = 0 ∧
    (self.optimize se3_exp cloud cloud tree rejector criteria serialReduction
      Isometry3d.Identity factors).1.error = 0 ∧
    (self.optimize se3_exp cloud cloud tree rejector criteria serialReduction
      Isometry3d.Identity factors).1.T_target_source = Isometry3d.Identity := by
  have hser := serial_linearize_same_cloud cloud tree rejector hexact hrej factors hlen
  have hdelta : self.delta cloud cloud tree rejector serialReduction
      ⟨RegistrationResult.new Isometry3d.Identity, factors⟩ = 0 := by
    simp only [GaussNewtonOptimizer.delta, RegistrationResult.new, hser.1]
    exact ldlt_solve_zero _
  obtain ⟨n, hn⟩ : ∃ n, self.max_iterations.toNat = n + 1 :=
    ⟨self.max_iterations.toNat - 1, by omega⟩
  have hbody : (GaussNewtonOptimizer.body self se3_exp cloud cloud tree rejector criteria
      serialReduction 0 ⟨RegistrationResult.new Isometry3d.Identity, factors⟩).result
      = { RegistrationResult.new Isometry3d.Identity with
          converged := true
          H := (serialReduction.linearize cloud cloud tree rejector Isometry3d.Identity
            factors).1.H } := by
    simp only [GaussNewtonOptimizer.body, RegistrationResult.new, hser.1, hser.2.1,
      ldlt_solve_zero, hcrit, hexp, mul_Identity]
  refine ⟨fun i hi out => ?_, hser.1, hdelta, ?_⟩
  · have := linearize_same_cloud cloud tree rejector hexact hrej i (by omega)
      (factors.get ⟨i, hi⟩) out
    exact ⟨this.1, this.2.1, this.2.2.2.2.1⟩
  · have hloop : GaussNewtonOptimizer.loop self se3_exp cloud cloud tree rejector criteria
        serialReduction (n + 1) 0 ⟨RegistrationResult.new Isometry3d.Identity, factors⟩
        = (GaussNewtonOptimizer.body self se3_exp cloud cloud tree rejector criteria
            serialReduction 0 ⟨RegistrationResult.new Isometry3d.Identity, factors⟩, 1) := by
      have h0 : (RegistrationResult.new Isometry3d.Identity).converged = false := rfl
      rw [GaussNewtonOptimizer.loop]
      simp only [h0, Bool.false_eq_true, if_false]
      rw [gn_loop_of_converged _ _ _ _ _ _ _ _ _ _ _ (by rw [hbody])]
    simp only [GaussNewtonOptimizer.optimize, hn, hloop, hbody]
    simp [RegistrationResult.new, hser.2.1]

theorem gauss_newton_same_cloud_witness :
    (1 ≤ GaussNewtonOptimizer.default.max_iterations ∧
      GaussNewtonOptimizer.default.lambda ≠ 0 ∧ ExactSearch treeB cloudB ∧
      (∀ T i j, (NullRejector.call {}) T i j 0 = false) ∧
      zeroStepCriteria.converged 0 = true ∧ se3_exp_lin 0 = Isometry3d.Identity ∧
      [GICPFactor.new].length ≤ cloudB.size) ∧
    (GaussNewtonOptimizer.default.optimize se3_exp_lin cloudB cloudB treeB (NullRejector.call {})
      zeroStepCriteria serialReduction Isometry3d.Identity [GICPFactor.new]).1.converged
      = true ∧
    (GaussNewtonOptimizer.default.optimize se3_exp_lin cloudB cloudB treeB (NullRejector.call {})
      zeroStepCriteria serialReduction Isometry3d.Identity [GICPFactor.new]).1.iterations = 0 := by
  have hmax : 1 ≤ GaussNewtonOptimizer.default.max_iterations := by decide
  have hlambda : GaussNewtonOptimizer.default.lambda ≠ 0 := by
    simp [GaussNewtonOptimizer.default]
  have hrej : ∀ T i j, (NullRejector.call {}) T i j 0 = false := fun _ _ _ => rfl
  have hcrit : zeroStepCriteria.converged 0 = true := by simp [zeroStepCriteria]
  have hlen : [GICPFactor.new].length ≤ cloudB.size := by decide
  have h := gauss_newton_same_cloud GaussNewtonOptimizer.default se3_exp_lin cloudB treeB
    (NullRejector.call {}) zeroStepCriteria [GICPFactor.new] hmax hlambda exactSearch_treeB hrej
    cov_cloudB_invertible hcrit se3_exp_lin_zero hlen
  exact ⟨⟨hmax, hlambda, exactSearch_treeB, hrej, hcrit, se3_exp_lin_zero, hlen⟩,
    h.2.2.2.1, h.2.2.2.2.1⟩

/-- C7 (as stated, refuted): the default Levenberg-Marquardt optimizer on the one-point cloud
matched against itself, under every hypothesis of the claim: no trial is accepted, and the
result has `converged = false` and `iterations = 19`. -/
theorem levenberg_marquardt_same_cloud_counterexample :
    (1 ≤ LevenbergMarquardtOptimizer.default.max_iterations ∧
      1 ≤ LevenbergMarquardtOptimizer.default.max_inner_iterations ∧
      ExactSearch treeB cloudB ∧
      (∀ T i j, (NullRejector.call {}) T i j 0 = false) ∧
      (∀ i j, i < cloudB.size → j < cloudB.size →
        (block3 (cloudB.cov j + Isometry3d.Identity.matrix * cloudB.cov i
          * Isometry3d.Identity.matrix.transpose)).det ≠ 0) ∧
      zeroStepCriteria.converged 0 = true ∧ se3_exp_lin 0 = Isometry3d.Identity) ∧
    (LevenbergMarquardtOptimizer.default.optimize se3_exp_lin cloudB cloudB treeB
      (NullRejector.call {}) zeroStepCriteria serialReduction Isometry3d.Identity
      [GICPFactor.new]).1.converged = false ∧
    (LevenbergMarquardtOptimizer.default.optimize se3_exp_lin cloudB cloudB treeB
      (NullRejector.call {}) zeroStepCriteria serialReduction Isometry3d.Identity
      [GICPFactor.new]).1.iterations = 19 := by
  have hmax : 1 ≤ LevenbergMarquardtOptimizer.default.max_iterations := by decide
  have hrej : ∀ T i j, (NullRejector.call {}) T i j 0 = false := fun _ _ _ => rfl
  have h := lm_optimize_same_cloud LevenbergMarquardtOptimizer.default se3_exp_lin cloudB treeB
    (NullRejector.call {}) zeroStepCriteria [GICPFactor.new] hmax exactSearch_treeB hrej
    se3_exp_lin_zero (by decide)
  refine ⟨⟨hmax, by decide, exactSearch_treeB, hrej, cov_cloudB_invertible,
    by simp [zeroStepCriteria], se3_exp_lin_zero⟩, h.1, ?_⟩
  rw [h.2.1]
  decide

/-- C7 (amended): for `LevenbergMarquardtOptimizer::optimize` with `max_iterations >= 1` and
`max_inner_iterations >= 1`, under the hypotheses of the claim (cloud matched against itself,
identity initial pose, exact search, a rejector that accepts squared distance 0, invertible
combined covariances, criteria that accept the zero step, `se3_exp(0)` the identity), every
trial has cost 0, which is not below the linearization cost 0, so no trial is accepted: the
optimizer runs all `max_iterations` outer iterations and the result has `converged = false`,
`iterations = max_iterations - 1`, the identity pose and `error = 0`. -/
theorem levenberg_marquardt_same_cloud (self : LevenbergMarquardtOptimizer)
    (se3_exp : Vector6d → Isometry3d) (cloud : PointCloud) (tree : TargetTree)
    (rejector : CorrespondenceRejector) (criteria : TerminationCriteria)
    (factors : List GICPFactor) (hmax : 1 ≤ self.max_iterations)
    (_hinner : 1 ≤ self.max_inner_iterations)
    (hexact : ExactSearch tree cloud) (hrej : ∀ T i j, rejector T i j 0 = false)
    (_hcov : ∀ i j, i < cloud.size → j < cloud.size →
      (block3 (cloud.cov j + Isometry3d.Identity.matrix * cloud.cov i
        * Isometry3d.Identity.matrix.transpose)).det ≠ 0)
    (_hcrit : criteria.converged 0 = true) (hexp : se3_exp 0 = Isometry3d.Identity)
    (hlen : factors.length ≤ cloud.size) :
    (self.optimize se3_exp cloud cloud tree rejector criteria serialReduction
      Isometry3d.Identity factors).1.converged = false ∧
    (self.optimize se3_exp cloud cloud tree rejector criteria serialReduction
      Isometry3d.Identity factors).1.iterations = self.max_iterations.toNat - 1 ∧
    (self.optimize se3_exp cloud cloud tree rejector criteria serialReduction
      Isometry3d.Identity factors).1.T_target_source = Isometry3d.Identity ∧
    (self.optimize se3_exp cloud cloud tree rejector criteria serialReduction
      Isometry3d.Identity factors).1.error = 0 :=
  lm_optimize_same_cloud self se3_exp cloud tree rejector criteria factors hmax hexact hrej hexp
    hlen

theorem levenberg_marquardt_same_cloud_witness :
    (1 ≤ LevenbergMarquardtOptimizer.default.max_iterations ∧
      1 ≤ LevenbergMarquardtOptimizer.default.max_inner_iterations ∧
      ExactSearch treeB cloudB ∧
      (∀ T i j, (NullRejector.call {}) T i j 0 = false) ∧
      zeroStepCriteria.converged 0 = true ∧ se3_exp_lin 0 = Isometry3d.Identity ∧
      [GICPFactor.new].length ≤ cloudB.size) ∧
    (LevenbergMarquardtOptimizer.default.optimize se3_exp_lin cloudB cloudB treeB
      (NullRejector.call {}) zeroStepCriteria serialReduction Isometry3d.Identity
      [GICPFactor.new]).1.T_target_source = Isometry3d.Identity := by
  have hmax : 1 ≤ LevenbergMarquardtOptimizer.default.max_iterations := by decide
  have hinner : 1 ≤ LevenbergMarquardtOptimizer.default.max_inner_iterations := by decide
  have hrej : ∀ T i j, (NullRejector.call {}) T i j 0 = false := fun _ _ _ => rfl
  have hcrit : zeroStepCriteria.converged 0 = true := by simp [zeroStepCriteria]
  have h := levenberg_marquardt_same_cloud LevenbergMarquardtOptimizer.default se3_exp_lin
    cloudB treeB (NullRejector.call {}) zeroStepCriteria [GICPFactor.new] hmax hinner
    exactSearch_treeB hrej cov_cloudB_invertible hcrit se3_exp_lin_zero (by decide)
  exact ⟨⟨hmax, hinner, exactSearch_treeB, hrej, hcrit, se3_exp_lin_zero, by decide⟩, h.2.2.1⟩

/-! ## The micro-case of the spec -/

theorem gn_optimize_of_first_zero (self : GaussNewtonOptimizer) (se3_exp : Vector6d → Isometry3d)
    (target source : PointCloud) (tree : TargetTree) (rejector : CorrespondenceRejector)
    (criteria : TerminationCriteria) (reduction : Reduction) (init_T : Isometry3d)
    (factors : List GICPFactor) (hmax : 1 ≤ self.max_iterations)
    (hcrit : criteria.converged 0 = true)
    (hb : (reduction.linearize target source tree rejector init_T factors).1.b = 0) :
    (self.optimize se3_exp target source tree rejector criteria reduction init_T
      factors).1.converged = true ∧
    (self.optimize se3_exp target source tree rejector criteria reduction init_T
      factors).1.iterations = 0 := by
  obtain ⟨n, hn⟩ : ∃ n, self.max_iterations.toNat = n + 1 :=
    ⟨self.max_iterations.toNat - 1, by omega⟩
  have hc : (GaussNewtonOptimizer.body self se3_exp target source tree rejector criteria
      reduction 0 ⟨RegistrationResult.new init_T, factors⟩).result.converged = true := by
    simp only [GaussNewtonOptimizer.body, RegistrationResult.new, hb, ldlt_solve_zero, hcrit]
  have h0 : (RegistrationResult.new init_T).converged = false := rfl
  have hloop : GaussNewtonOptimizer.loop self se3_exp target source tree rejector criteria
      reduction (n + 1) 0 ⟨RegistrationResult.new init_T, factors⟩
      = (GaussNewtonOptimizer.body self se3_exp target source tree rejector criteria
          reduction 0 ⟨RegistrationResult.new init_T, factors⟩, 1) := by
    rw [GaussNewtonOptimizer.loop]
    simp only [h0, Bool.false_eq_true, if_false]
    rw [gn_loop_of_converged _ _ _ _ _ _ _ _ _ _ _ hc]
  simp only [GaussNewtonOptimizer.optimize, hn, hloop]
  exact ⟨hc, rfl⟩

/-- C8 (as stated, refuted): in the micro-case with `eps = 1`, `linearize` succeeds and the `H`
it writes is not the zero matrix: its entry `(3, 3)` is `1/2`. -/
theorem micro_case_counterexample :
    (GICPFactor.new.linearize cloudB cloudB treeB Isometry3d.Identity 0 (NullRejector.call {})
      out0).1 = true ∧
    (GICPFactor.new.linearize cloudB cloudB treeB Isometry3d.Identity 0 (NullRejector.call {})
      out0).2.2.H 3 3 = 1 / 2 ∧
    (GICPFactor.new.linearize cloudB cloudB treeB Isometry3d.Identity 0 (NullRejector.call {})
      out0).2.2.H ≠ 0 := by
  have h := linearize_micro GICPFactor.new cloudB cloudB treeB (NullRejector.call {}) out0 1 0
    (sq_dist (cloudB.point 0) (Isometry3d.Identity.apply (cloudB.point 0))) one_pos rfl rfl rfl
    (by simp [cloudB, block3_one]) (by simp [cloudB, block3_one]) rfl
  rw [h]
  refine ⟨rfl, ?_, microH_ne_zero _ (by norm_num)⟩
  simp [microH]

/-- C8 (amended): in the micro-case (source point `(1, 0, 0)`, nearest target point `(1, 0, 0)`
accepted by the rejector, `cov_target = cov_source = eps * I` with `eps > 0`, identity pose),
`linearize` succeeds and writes `e = 0`, `b = 0` and `H = J^T * W * J = (1 / (2 * eps)) * J^T *
J`, which is not the zero matrix; and with criteria that accept the zero step the Gauss-Newton
optimizer over this single factor converges at its first iteration (`converged = true`,
`iterations = 0`). -/
theorem micro_case (self : GaussNewtonOptimizer) (se3_exp : Vector6d → Isometry3d)
    (f : GICPFactor) (target source : PointCloud) (tree : TargetTree)
    (rejector : CorrespondenceRejector) (criteria : TerminationCriteria) (out : LinearizeOut)
    (eps : ℚ) (j : Nat) (d : ℚ)
    (heps : 0 < eps) (hsrc : source.point 0 = ![1, 0, 0, 1])
    (hs : tree.knn_search (Isometry3d.Identity.apply (source.point 0)) = some (j, d))
    (htgt : target.point j = ![1, 0, 0, 1])
    (hct : block3 (target.cov j) = eps • 1) (hcs : block3 (source.cov 0) = eps • 1)
    (hrej : rejector Isometry3d.Identity j 0 d = false)
    (hcrit : criteria.converged 0 = true) (hmax : 1 ≤ self.max_iterations) :
    (f.linearize target source tree Isometry3d.Identity 0 rejector out).1 = true ∧
    (f.linearize target source tree Isometry3d.Identity 0 rejector out).2.2.e = 0 ∧
    (f.linearize target source tree Isometry3d.Identity 0 rejector out).2.2.b = 0 ∧
    (f.linearize target source tree Isometry3d.Identity 0 rejector out).2.2.H
      = (2 * eps)⁻¹ • microH ∧
    (f.linearize target source tree Isometry3d.Identity 0 rejector out).2.2.H ≠ 0 ∧
    (self.optimize se3_exp target source tree rejector criteria serialReduction
      Isometry3d.Identity [f]).1.converged = true ∧
    (self.optimize se3_exp target source tree rejector criteria serialReduction
      Isometry3d.Identity [f]).1.iterations = 0 := by
  have hne : (2 * eps)⁻¹ ≠ 0 := inv_ne_zero (by positivity)
  have hb : (serialReduction.linearize target source tree rejector Isometry3d.Identity [f]).1.b
      = 0 := by
    simp [serialReduction, SerialReduction.linearize, SerialReduction.linearizeLoop,
      linearize_micro f target source tree rejector ⟨0, 0, 0⟩ eps j d heps hsrc hs htgt hct hcs
        hrej]
  rw [linearize_micro f target source tree rejector out eps j d heps hsrc hs htgt hct hcs hrej]
  exact ⟨rfl, rfl, rfl, rfl, microH_ne_zero _ hne,
    gn_optimize_of_first_zero self se3_exp target source tree rejector criteria serialReduction
      Isometry3d.Identity [f] hmax hcrit hb⟩

theorem micro_case_witness :
    (GICPFactor.new.linearize cloudB cloudB treeB Isometry3d.Identity 0 (NullRejector.call {})
      out0).2.2.H = (2 * 1 : ℚ)⁻¹ • microH ∧
    (GaussNewtonOptimizer.default.optimize se3_exp_lin cloudB cloudB treeB
      (NullRejector.call {}) zeroStepCriteria serialReduction Isometry3d.Identity
      [GICPFactor.new]).1.converged = true := by
  have h := micro_case GaussNewtonOptimizer.default se3_exp_lin GICPFactor.new cloudB cloudB
    treeB (NullRejector.call {}) zeroStepCriteria out0 1 0
    (sq_dist (cloudB.point 0) (Isometry3d.Identity.apply (cloudB.point 0))) one_pos rfl rfl rfl
    (by simp [cloudB, block3_one]) (by simp [cloudB, block3_one]) rfl
    (by simp [zeroStepCriteria]) (by decide)
  exact ⟨h.2.2.2.1, h.2.2.2.2.2.1⟩

/-! ## One outer iteration of Levenberg-Marquardt -/

theorem lm_inner_spec (self : LevenbergMarquardtOptimizer) (se3_exp : Vector6d → Isometry3d)
    (target source : PointCloud) (criteria : TerminationCriteria) (reduction : Reduction)
    (lin : LinearizeOut) (factors : List GICPFactor) (result : RegistrationResult) :
    ∀ (fuel : Nat) (lambda : ℚ),
      ((LevenbergMarquardtOptimizer.inner self se3_exp target source criteria reduction lin
          factors fuel lambda result).2.2 = true →
        reduction.error target source
          (LevenbergMarquardtOptimizer.inner self se3_exp target source criteria reduction lin
            factors fuel lambda result).2.1.T_target_source factors < lin.e) ∧
      ((LevenbergMarquardtOptimizer.inner self se3_exp target source criteria reduction lin
          factors fuel lambda result).2.2 = false →
        (LevenbergMarquardtOptimizer.inner self se3_exp target source criteria reduction lin
          factors fuel lambda result).2.1 = result) := by
  intro fuel
  induction fuel with
  | zero => intro lambda; simp [LevenbergMarquardtOptimizer.inner]
  | succ n ih =>
    intro lambda
    simp only [LevenbergMarquardtOptimizer.inner]
    split
    · rename_i h
      simp [h]
    · exact ih _

/-- C9: in every outer iteration of `LevenbergMarquardtOptimizer::optimize`, with `e` the cost
returned by that iteration's linearization (recorded in `result.error`) and the factors as that
linearization left them: if some inner trial is accepted (`success`), the committed pose has
`reduction.error` strictly below `e`; if no inner trial is accepted, the pose after the
iteration equals the pose before it and `converged` is not changed. -/
theorem lm_body_accept_or_keep (self : LevenbergMarquardtOptimizer)
    (se3_exp : Vector6d → Isometry3d) (target source : PointCloud) (target_tree : TargetTree)
    (rejector : CorrespondenceRejector) (criteria : TerminationCriteria) (reduction : Reduction)
    (i : Nat) (st : LMState) :
    (LevenbergMarquardtOptimizer.body self se3_exp target source target_tree rejector criteria
        reduction i st).result.error
      = (reduction.linearize target source target_tree rejector st.result.T_target_source
        st.factors).1.e ∧
    (LevenbergMarquardtOptimizer.body self se3_exp target source target_tree rejector criteria
        reduction i st).factors
      = (reduction.linearize target source target_tree rejector st.result.T_target_source
        st.factors).2 ∧
    ((LevenbergMarquardtOptimizer.inner self se3_exp target source criteria reduction
        (reduction.linearize target source target_tree rejector st.result.T_target_source
          st.factors).1
        (reduction.linearize target source target_tree rejector st.result.T_target_source
          st.factors).2
        self.max_inner_iterations.toNat st.lambda st.result).2.2 = true →
      reduction.error target source
        (LevenbergMarquardtOptimizer.body self se3_exp target source target_tree rejector
          criteria reduction i st).result.T_target_source
        (LevenbergMarquardtOptimizer.body self se3_exp target source target_tree rejector
          criteria reduction i st).factors
        < (reduction.linearize target source target_tree rejector st.result.T_target_source
          st.factors).1.e) ∧
    ((LevenbergMarquardtOptimizer.inner self se3_exp target source criteria reduction
        (reduction.linearize target source target_tree rejector st.result.T_target_source
          st.factors).1
        (reduction.linearize target source target_tree rejector st.result.T_target_source
          st.factors).2
        self.max_inner_iterations.toNat st.lambda st.result).2.2 = false →
      (LevenbergMarquardtOptimizer.body self se3_exp target source target_tree rejector criteria
        reduction i st).result.T_target_source = st.result.T_target_source ∧
      (LevenbergMarquardtOptimizer.body self se3_exp target source target_tree rejector criteria
        reduction i st).result.converged = st.result.converged) := by
  have h := lm_inner_spec self se3_exp target source criteria reduction
    (reduction.linearize target source target_tree rejector st.result.T_target_source
      st.factors).1
    (reduction.linearize target source target_tree rejector st.result.T_target_source
      st.factors).2 st.result self.max_inner_iterations.toNat st.lambda
  refine ⟨rfl, rfl, fun hs => h.1 hs, fun hf => ?_⟩
  simp only [LevenbergMarquardtOptimizer.body, h.2 hf]
  exact ⟨trivial, trivial⟩

theorem lm_body_accept_or_keep_witness :
    (LevenbergMarquardtOptimizer.inner LevenbergMarquardtOptimizer.default se3_exp_lin cloudA
        cloudB zeroStepCriteria stepDownReduction
        (stepDownReduction.linearize cloudA cloudB treeZero (NullRejector.call {})
          Isometry3d.Identity [GICPFactor.new]).1
        (stepDownReduction.linearize cloudA cloudB treeZero (NullRejector.call {})
          Isometry3d.Identity [GICPFactor.new]).2
        LevenbergMarquardtOptimizer.default.max_inner_iterations.toNat
        LevenbergMarquardtOptimizer.default.init_lambda
        (RegistrationResult.new Isometry3d.Identity)).2.2 = true ∧
    stepDownReduction.error cloudA cloudB
        (LevenbergMarquardtOptimizer.body LevenbergMarquardtOptimizer.default se3_exp_lin cloudA
          cloudB treeZero (NullRejector.call {}) zeroStepCriteria stepDownReduction 0
          ⟨LevenbergMarquardtOptimizer.default.init_lambda,
            RegistrationResult.new Isometry3d.Identity, [GICPFactor.new]⟩).result.T_target_source
        (LevenbergMarquardtOptimizer.body LevenbergMarquardtOptimizer.default se3_exp_lin cloudA
          cloudB treeZero (NullRejector.call {}) zeroStepCriteria stepDownReduction 0
          ⟨LevenbergMarquardtOptimizer.default.init_lambda,
            RegistrationResult.new Isometry3d.Identity, [GICPFactor.new]⟩).factors
      < (stepDownReduction.linearize cloudA cloudB treeZero (NullRejector.call {})
          Isometry3d.Identity [GICPFactor.new]).1.e := by
  have hacc : (LevenbergMarquardtOptimizer.inner LevenbergMarquardtOptimizer.default se3_exp_lin
      cloudA cloudB zeroStepCriteria stepDownReduction
      (stepDownReduction.linearize cloudA cloudB treeZero (NullRejector.call {})
        Isometry3d.Identity [GICPFactor.new]).1
      (stepDownReduction.linearize cloudA cloudB treeZero (NullRejector.call {})
        Isometry3d.Identity [GICPFactor.new]).2
      LevenbergMarquardtOptimizer.default.max_inner_iterations.toNat
      LevenbergMarquardtOptimizer.default.init_lambda
      (RegistrationResult.new Isometry3d.Identity)).2.2 = true := by
    have h10 : LevenbergMarquardtOptimizer.default.max_inner_iterations.toNat = 9 + 1 := by
      decide
    rw [h10]
    simp [LevenbergMarquardtOptimizer.inner, stepDownReduction]
  exact ⟨hacc, (lm_body_accept_or_keep LevenbergMarquardtOptimizer.default se3_exp_lin cloudA
    cloudB treeZero (NullRejector.call {}) zeroStepCriteria stepDownReduction 0
    ⟨LevenbergMarquardtOptimizer.default.init_lambda,
      RegistrationResult.new Isometry3d.Identity, [GICPFactor.new]⟩).2.2.1 hacc⟩

/-! ## The iteration count of Gauss-Newton -/

theorem gn_stateAt_converged (self : GaussNewtonOptimizer) (se3_exp : Vector6d → Isometry3d)
    (target source : PointCloud) (target_tree : TargetTree) (rejector : CorrespondenceRejector)
    (criteria : TerminationCriteria) (reduction : Reduction) (init_T : Isometry3d)
    (factors : List GICPFactor) (k : Nat) :
    (GaussNewtonOptimizer.stateAt self se3_exp target source target_tree rejector criteria
        reduction init_T factors (k + 1)).result.converged
      = criteria.converged (self.delta target source target_tree rejector reduction
        (GaussNewtonOptimizer.stateAt self se3_exp target source target_tree rejector criteria
          reduction init_T factors k)) ∧
    (GaussNewtonOptimizer.stateAt self se3_exp target source target_tree rejector criteria
        reduction init_T factors (k + 1)).result.iterations = k :=
  ⟨rfl, rfl⟩

theorem gn_loop_stateAt (self : GaussNewtonOptimizer) (se3_exp : Vector6d → Isometry3d)
    (target source : PointCloud) (target_tree : TargetTree) (rejector : CorrespondenceRejector)
    (criteria : TerminationCriteria) (reduction : Reduction) (init_T : Isometry3d)
    (factors : List GICPFactor) :
    ∀ (fuel i : Nat),
      (GaussNewtonOptimizer.stateAt self se3_exp target source target_tree rejector criteria
        reduction init_T factors i).result.converged = false →
      (∀ m, m < fuel →
        criteria.converged (self.delta target source target_tree rejector reduction
          (GaussNewtonOptimizer.stateAt self se3_exp target source target_tree rejector criteria
            reduction init_T factors (i + m))) = true →
        (∀ j, j < m →
          criteria.converged (self.delta target source target_tree rejector reduction
            (GaussNewtonOptimizer.stateAt self se3_exp target source target_tree rejector
              criteria reduction init_T factors (i + j))) = false) →
        GaussNewtonOptimizer.loop self se3_exp target source target_tree rejector criteria
            reduction fuel i
            (GaussNewtonOptimizer.stateAt self se3_exp target source target_tree rejector
              criteria reduction init_T factors i)
          = (GaussNewtonOptimizer.stateAt self se3_exp target source target_tree rejector
              criteria reduction init_T factors (i + m + 1), m + 1)) ∧
      ((∀ j, j < fuel →
          criteria.converged (self.delta target source target_tree rejector reduction
            (GaussNewtonOptimizer.stateAt self se3_exp target source target_tree rejector
              criteria reduction init_T factors (i + j))) = false) →
        GaussNewtonOptimizer.loop self se3_exp target source target_tree rejector criteria
            reduction fuel i
            (GaussNewtonOptimizer.stateAt self se3_exp target source target_tree rejector
              criteria reduction init_T factors i)
          = (GaussNewtonOptimizer.stateAt self se3_exp target source target_tree rejector
              criteria reduction init_T factors (i + fuel), fuel)) := by
  intro fuel
  induction fuel with
  | zero =>
    intro i _
    exact ⟨fun m hm => absurd hm (by omega), fun _ => rfl⟩
  | succ n ih =>
    intro i hi
    have hstep : GaussNewtonOptimizer.body self se3_exp target source target_tree rejector
        criteria reduction i (GaussNewtonOptimizer.stateAt self se3_exp target source
          target_tree rejector criteria reduction init_T factors i)
        = GaussNewtonOptimizer.stateAt self se3_exp target source target_tree rejector criteria
          reduction init_T factors (i + 1) := rfl
    have hconv := (gn_stateAt_converged self se3_exp target source target_tree rejector criteria
      reduction init_T factors i).1
    constructor
    · intro m hm hPm hmin
      rw [GaussNewtonOptimizer.loop]
      simp only [hi, Bool.false_eq_true, if_false, hstep]
      cases m with
      | zero =>
        rw [Nat.add_zero] at hPm
        rw [gn_loop_of_converged _ _ _ _ _ _ _ _ _ _ _ (by rw [hconv]; exact hPm)]
      | succ m2 =>
        have hP0 := hmin 0 (by omega)
        rw [Nat.add_zero] at hP0
        have h1 := (ih (i + 1) (by rw [hconv]; exact hP0)).1 m2 (by omega)
          (by rw [show i + 1 + m2 = i + (m2 + 1) by omega]; exact hPm)
          (fun j hj => by
            rw [show i + 1 + j = i + (j + 1) by omega]
            exact hmin (j + 1) (by omega))
        rw [h1, show i + 1 + m2 + 1 = i + (m2 + 1) + 1 by omega]
    · intro hnone
      rw [GaussNewtonOptimizer.loop]
      simp only [hi, Bool.false_eq_true, if_false, hstep]
      have hP0 := hnone 0 (by omega)
      rw [Nat.add_zero] at hP0
      have h1 := (ih (i + 1) (by rw [hconv]; exact hP0)).2
        (fun j hj => by
          rw [show i + 1 + j = i + (j + 1) by omega]
          exact hnone (j + 1) (by omega))
      rw [h1, show i + 1 + n = i + (n + 1) by omega]


theorem gn_runs_found (self : GaussNewtonOptimizer) (se3_exp : Vector6d → Isometry3d)
    (target source : PointCloud) (target_tree : TargetTree) (rejector : CorrespondenceRejector)
    (criteria : TerminationCriteria) (reduction : Reduction) (init_T : Isometry3d)
    (factors : List GICPFactor) (k : Nat) (hk : k < self.max_iterations.toNat)
    (hPk : self.convergedAt se3_exp target source target_tree rejector criteria reduction
      init_T factors k = true)
    (hmin : ∀ j, j < k → self.convergedAt se3_exp target source target_tree rejector criteria
      reduction init_T factors j = false) :
    self.bodyRuns se3_exp target source target_tree rejector criteria reduction init_T factors
      = k + 1 ∧
    (self.optimize se3_exp target source target_tree rejector criteria reduction init_T
      factors).1.iterations = k ∧
    (self.optimize se3_exp target source target_tree rejector criteria reduction init_T
      factors).1.converged = true := by
  have h := (gn_loop_stateAt self se3_exp target source target_tree rejector criteria reduction
    init_T factors self.max_iterations.toNat 0 rfl).1 k hk
    (by rw [Nat.zero_add]; exact hPk) (fun j hj => by rw [Nat.zero_add]; exact hmin j hj)
  rw [Nat.zero_add] at h
  have h' : GaussNewtonOptimizer.loop self se3_exp target source target_tree rejector criteria
      reduction self.max_iterations.toNat 0 ⟨RegistrationResult.new init_T, factors⟩ = _ := h
  simp only [GaussNewtonOptimizer.bodyRuns, GaussNewtonOptimizer.optimize, h']
  have hc := gn_stateAt_converged self se3_exp target source target_tree rejector criteria
    reduction init_T factors k
  exact ⟨trivial, hc.2, hc.1.trans hPk⟩

theorem gn_runs_none (self : GaussNewtonOptimizer) (se3_exp : Vector6d → Isometry3d)
    (target source : PointCloud) (target_tree : TargetTree) (rejector : CorrespondenceRejector)
    (criteria : TerminationCriteria) (reduction : Reduction) (init_T : Isometry3d)
    (factors : List GICPFactor) (hmax : 1 ≤ self.max_iterations)
    (hnone : ∀ j, j < self.max_iterations.toNat → self.convergedAt se3_exp target source
      target_tree rejector criteria reduction init_T factors j = false) :
    self.bodyRuns se3_exp target source target_tree rejector criteria reduction init_T factors
      = self.max_iterations.toNat ∧
    (self.optimize se3_exp target source target_tree rejector criteria reduction init_T
      factors).1.iterations = self.max_iterations.toNat - 1 ∧
    (self.optimize se3_exp target source target_tree rejector criteria reduction init_T
      factors).1.converged = false := by
  have h := (gn_loop_stateAt self se3_exp target source target_tree rejector criteria reduction
    init_T factors self.max_iterations.toNat 0 rfl).2
    (fun j hj => by rw [Nat.zero_add]; exact hnone j hj)
  rw [Nat.zero_add] at h
  have h' : GaussNewtonOptimizer.loop self se3_exp target source target_tree rejector criteria
      reduction self.max_iterations.toNat 0 ⟨RegistrationResult.new init_T, factors⟩ = _ := h
  simp only [GaussNewtonOptimizer.bodyRuns, GaussNewtonOptimizer.optimize, h']
  obtain ⟨n, hn⟩ : ∃ n, self.max_iterations.toNat = n + 1 :=
    ⟨self.max_iterations.toNat - 1, by omega⟩
  have hc := gn_stateAt_converged self se3_exp target source target_tree rejector criteria
    reduction init_T factors n
  rw [hn]
  exact ⟨trivial, hc.2, hc.1.trans (hnone n (by omega))⟩

/-- C10: for `GaussNewtonOptimizer::optimize` with `max_iterations >= 1`, the loop body runs
exactly `n` times, where `n = k + 1` if `k` is the least iteration index below `max_iterations`
at which `criteria.converged(delta_k)` holds and `n = max_iterations` if there is none; the
result has `iterations = n - 1`, below `max_iterations`, and `converged = true` exactly when
such a `k` exists. -/
theorem gn_optimize_runs (self : GaussNewtonOptimizer) (se3_exp : Vector6d → Isometry3d)
    (target source : PointCloud) (target_tree : TargetTree) (rejector : CorrespondenceRejector)
    (criteria : TerminationCriteria) (reduction : Reduction) (init_T : Isometry3d)
    (factors : List GICPFactor) (hmax : 1 ≤ self.max_iterations) :
    (∀ k : Nat, (k : ℤ) < self.max_iterations →
      self.convergedAt se3_exp target source target_tree rejector criteria reduction init_T
        factors k = true →
      (∀ j, j < k → self.convergedAt se3_exp target source target_tree rejector criteria
        reduction init_T factors j = false) →
      self.bodyRuns se3_exp target source target_tree rejector criteria reduction init_T factors
        = k + 1 ∧
      (self.optimize se3_exp target source target_tree rejector criteria reduction init_T
        factors).1.iterations = k ∧
      (self.optimize se3_exp target source target_tree rejector criteria reduction init_T
        factors).1.converged = true) ∧
    ((∀ j : Nat, (j : ℤ) < self.max_iterations →
        self.convergedAt se3_exp target source target_tree rejector criteria reduction init_T
          factors j = false) →
      (self.bodyRuns se3_exp target source target_tree rejector criteria reduction init_T
        factors : ℤ) = self.max_iterations ∧
      ((self.optimize se3_exp target source target_tree rejector criteria reduction init_T
        factors).1.iterations : ℤ) = self.max_iterations - 1 ∧
      (self.optimize se3_exp target source target_tree rejector criteria reduction init_T
        factors).1.converged = false) ∧
    ((self.optimize se3_exp target source target_tree rejector criteria reduction init_T
        factors).1.converged = true ↔
      ∃ k : Nat, (k : ℤ) < self.max_iterations ∧
        self.convergedAt se3_exp target source target_tree rejector criteria reduction init_T
          factors k = true) ∧
    (self.optimize se3_exp target source target_tree rejector criteria reduction init_T
        factors).1.iterations + 1
      = self.bodyRuns se3_exp target source target_tree rejector criteria reduction init_T
        factors ∧
    ((self.optimize se3_exp target source target_tree rejector criteria reduction init_T
      factors).1.iterations : ℤ) < self.max_iterations := by
  have hN : (self.max_iterations.toNat : ℤ) = self.max_iterations :=
    Int.toNat_of_nonneg (by omega)
  have hfound : ∀ k : Nat, (k : ℤ) < self.max_iterations →
      self.convergedAt se3_exp target source target_tree rejector criteria reduction init_T
        factors k = true →
      (∀ j, j < k → self.convergedAt se3_exp target source target_tree rejector criteria
        reduction init_T factors j = false) → _ :=
    fun k hk hPk hmin => gn_runs_found self se3_exp target source target_tree rejector criteria
      reduction init_T factors k (by omega) hPk hmin
  have hnone : (∀ j : Nat, (j : ℤ) < self.max_iterations →
        self.convergedAt se3_exp target source target_tree rejector criteria reduction init_T
          factors j = false) → _ :=
    fun h => gn_runs_none self se3_exp target source target_tree rejector criteria reduction
      init_T factors hmax (fun j hj => h j (by omega))
  by_cases hex : ∃ k : Nat, (k : ℤ) < self.max_iterations ∧
      self.convergedAt se3_exp target source target_tree rejector criteria reduction init_T
        factors k = true
  · have hk := Nat.find_spec hex
    have hmin : ∀ j, j < Nat.find hex → self.convergedAt se3_exp target source target_tree
        rejector criteria reduction init_T factors j = false := by
      intro j hj
      have := Nat.find_min hex hj
      have hjlt : (j : ℤ) < self.max_iterations := by omega
      simpa [hjlt] using this
    have hf := hfound (Nat.find hex) hk.1 hk.2 hmin
    refine ⟨hfound, fun h => ?_, ⟨fun _ => hex, fun _ => hf.2.2⟩, ?_, ?_⟩
    · have := h (Nat.find hex) hk.1
      rw [hk.2] at this
      exact absurd this (by simp)
    · rw [hf.1, hf.2.1]
    · rw [hf.2.1]; exact hk.1
  · have hall : ∀ j : Nat, (j : ℤ) < self.max_iterations →
        self.convergedAt se3_exp target source target_tree rejector criteria reduction init_T
          factors j = false := by
      intro j hj
      by_contra hc
      exact hex ⟨j, hj, by simpa using hc⟩
    have hn := hnone hall
    refine ⟨hfound, fun _ => ⟨by rw [hn.1]; exact hN, by rw [hn.2.1]; omega, hn.2.2⟩,
      ⟨fun h => ?_, fun h => absurd h hex⟩, ?_, ?_⟩
    · rw [hn.2.2] at h
      exact absurd h (by simp)
    · rw [hn.1, hn.2.1]; omega
    · rw [hn.2.1]; omega

theorem gn_optimize_runs_witness :
    1 ≤ GaussNewtonOptimizer.default.max_iterations ∧
    ((GaussNewtonOptimizer.default.optimize se3_exp_lin cloudA cloudB treeZero
      (NullRejector.call {}) zeroStepCriteria serialReduction Isometry3d.Identity
      [GICPFactor.new]).1.iterations : ℤ) < GaussNewtonOptimizer.default.max_iterations := by
  have hmax : 1 ≤ GaussNewtonOptimizer.default.max_iterations := by decide
  exact ⟨hmax, (gn_optimize_runs GaussNewtonOptimizer.default se3_exp_lin cloudA cloudB treeZero
    (NullRejector.call {}) zeroStepCriteria serialReduction Isometry3d.Identity
    [GICPFactor.new] hmax).2.2.2.2⟩

/-! ## Frame of `linearize` and the border of `mahalanobis` -/

theorem linearize_false_frame (self : GICPFactor) (target source : PointCloud)
    (target_tree : TargetTree) (T : Isometry3d) (source_index : Nat)
    (rejector : CorrespondenceRejector) (out : LinearizeOut)
    (hfail : (self.linearize target source target_tree T source_index rejector out).1 = false) :
    (self.linearize target source target_tree T source_index rejector out).2.2 = out ∧
    (self.linearize target source target_tree T source_index rejector out).2.1
      = { self with source_index := source_index, target_index := SIZE_MAX } := by
  cases hs : target_tree.knn_search (T.apply (source.point source_index)) with
  | none => simp [linearize_none _ _ _ _ _ _ _ _ hs]
  | some kd =>
    obtain ⟨k, d⟩ := kd
    cases hr : rejector T k source_index d with
    | true => simp [linearize_reject _ _ _ _ _ _ _ _ k d hs hr]
    | false => simp [linearize_accept _ _ _ _ _ _ _ _ k d hs hr] at hfail

/-- `linearize` keeps the fourth row and column of `mahalanobis`. -/
theorem linearize_mahalanobis_border (self : GICPFactor) (target source : PointCloud)
    (target_tree : TargetTree) (T : Isometry3d) (source_index : Nat)
    (rejector : CorrespondenceRejector) (out : LinearizeOut) (i : Fin 4) :
    (self.linearize target source target_tree T source_index rejector out).2.1.mahalanobis 3 i
      = self.mahalanobis 3 i ∧
    (self.linearize target source target_tree T source_index rejector out).2.1.mahalanobis i 3
      = self.mahalanobis i 3 := by
  cases hs : target_tree.knn_search (T.apply (source.point source_index)) with
  | none => simp [linearize_none _ _ _ _ _ _ _ _ hs]
  | some kd =>
    obtain ⟨k, d⟩ := kd
    cases hr : rejector T k source_index d with
    | true => simp [linearize_reject _ _ _ _ _ _ _ _ k d hs hr]
    | false =>
      rw [linearize_accept _ _ _ _ _ _ _ _ k d hs hr]
      fin_cases i <;> simp [setBlock3]

theorem run_mahalanobis_border (calls : List FactorCall) :
    ∀ (f : GICPFactor), (∀ i, f.mahalanobis 3 i = 0 ∧ f.mahalanobis i 3 = 0) →
      ∀ i, (f.run calls).mahalanobis 3 i = 0 ∧ (f.run calls).mahalanobis i 3 = 0 := by
  induction calls with
  | nil => intro f h; exact h
  | cons c cs ih =>
    intro f h
    apply ih
    intro i
    cases c with
    | linearize target source target_tree T source_index rejector out =>
      have := linearize_mahalanobis_border f target source target_tree T source_index rejector
        out i
      simp only [GICPFactor.step]
      rw [this.1, this.2]
      exact h i
    | error target source T => exact h i

/-- C16: for a factor created by the default constructor and then subjected to any sequence of
`linearize` and `error` calls, successful or not, the fourth row and the fourth column of
`mahalanobis` are all zero: only the top-left 3x3 block can be non-zero. -/
theorem mahalanobis_border_zero (calls : List FactorCall) (i : Fin 4) :
    (GICPFactor.new.run calls).mahalanobis 3 i = 0 ∧
    (GICPFactor.new.run calls).mahalanobis i 3 = 0 :=
  run_mahalanobis_border calls GICPFactor.new (fun _ => ⟨rfl, rfl⟩) i

/-- C18: when `linearize` returns false, the contents of the output locations `H`, `b` and
`e` are what they were, the cached `mahalanobis` is what it was, and the only state changed is
`source_index` (set to the argument) and `target_index` (set to the no-correspondence
value). -/
theorem linearize_failure_frame (self : GICPFactor) (target source : PointCloud)
    (target_tree : TargetTree) (T : Isometry3d) (source_index : Nat)
    (rejector : CorrespondenceRejector) (out : LinearizeOut)
    (hfail : (self.linearize target source target_tree T source_index rejector out).1 = false) :
    (self.linearize target source target_tree T source_index rejector out).2.2.H = out.H ∧
    (self.linearize target source target_tree T source_index rejector out).2.2.b = out.b ∧
    (self.linearize target source target_tree T source_index rejector out).2.2.e = out.e ∧
    (self.linearize target source target_tree T source_index rejector out).2.1.mahalanobis
      = self.mahalanobis ∧
    (self.linearize target source target_tree T source_index rejector out).2.1.source_index
      = source_index ∧
    (self.linearize target source target_tree T source_index rejector out).2.1.target_index
      = SIZE_MAX ∧
    (self.linearize target source target_tree T source_index rejector out).2.1
      = { self with source_index := source_index, target_index := SIZE_MAX } := by
  have h := linearize_false_frame self target source target_tree T source_index rejector out
    hfail
  rw [h.1, h.2]
  exact ⟨rfl, rfl, rfl, rfl, rfl, rfl, rfl⟩

theorem linearize_failure_frame_witness :
    (GICPFactor.new.linearize cloudA cloudB treeEmpty shiftX 7 (NullRejector.call {}) out0).1
      = false ∧
    (GICPFactor.new.linearize cloudA cloudB treeEmpty shiftX 7 (NullRejector.call {}) out0).2.2
      = out0 ∧
    (GICPFactor.new.linearize cloudA cloudB treeEmpty shiftX 7
      (NullRejector.call {}) out0).2.1.source_index = 7 := by
  have hfail : (GICPFactor.new.linearize cloudA cloudB treeEmpty shiftX 7
      (NullRejector.call {}) out0).1 = false := by
    simp [GICPFactor.linearize, treeEmpty]
  have h := linearize_failure_frame GICPFactor.new cloudA cloudB treeEmpty shiftX 7
    (NullRejector.call {}) out0 hfail
  refine ⟨hfail, ?_, h.2.2.2.2.1⟩
  rw [(linearize_false_frame GICPFactor.new cloudA cloudB treeEmpty shiftX 7
    (NullRejector.call {}) out0 hfail).1]

/-- The flag that `linearize` returns does not depend on the factor or on the outputs. -/
theorem linearize_fst_indep (f g : GICPFactor) (target source : PointCloud)
    (target_tree : TargetTree) (T : Isometry3d) (source_index : Nat)
    (rejector : CorrespondenceRejector) (out out2 : LinearizeOut) :
    (f.linearize target source target_tree T source_index rejector out).1
      = (g.linearize target source target_tree T source_index rejector out2).1 := by
  cases hs : target_tree.knn_search (T.apply (source.point source_index)) with
  | none => simp [linearize_none _ _ _ _ _ _ _ _ hs]
  | some kd =>
    obtain ⟨k, d⟩ := kd
    cases hr : rejector T k source_index d with
    | true => simp [linearize_reject _ _ _ _ _ _ _ _ k d hs hr]
    | false => simp [linearize_accept _ _ _ _ _ _ _ _ k d hs hr]

/-- The serial reduction when every factor fails: nothing is summed and no factor is an
inlier afterwards. -/
theorem linearizeLoop_all_fail (target source : PointCloud) (tree : TargetTree)
    (rejector : CorrespondenceRejector) (T : Isometry3d) :
    ∀ (fs : List GICPFactor) (i : Nat) (sum : LinearizeOut),
      (∀ m, m < fs.length → ∀ (f : GICPFactor) (out : LinearizeOut),
        (f.linearize target source tree T (i + m) rejector out).1 = false) →
      (SerialReduction.linearizeLoop target source tree rejector T i fs sum).1 = sum ∧
      (SerialReduction.linearizeLoop target source tree rejector T i fs sum).2.countP
        GICPFactor.inlier = 0 := by
  intro fs
  induction fs with
  | nil => intro i sum _; simp [SerialReduction.linearizeLoop]
  | cons f fs ih =>
    intro i sum h
    have h0 := h 0 (by simp) f ⟨0, 0, 0⟩
    simp only [Nat.add_zero] at h0
    have hrest := ih (i + 1) sum (fun m hm f2 out => by
      have := h (m + 1) (by simp; omega) f2 out
      rwa [show i + (m + 1) = i + 1 + m by omega] at this)
    have hfr := linearize_false_frame f target source tree T i rejector ⟨0, 0, 0⟩ h0
    simp only [SerialReduction.linearizeLoop, h0, Bool.false_eq_true, if_false, hrest.1,
      List.countP_cons, hrest.2, hfr.2]
    simp [GICPFactor.inlier]

/-! ## Every factor fails -/

theorem serial_linearize_all_fail (target source : PointCloud) (tree : TargetTree)
    (rejector : CorrespondenceRejector) (T : Isometry3d) (fs : List GICPFactor)
    (hfail : ∀ m, m < fs.length → ∀ (f : GICPFactor) (out : LinearizeOut),
      (f.linearize target source tree T m rejector out).1 = false) :
    (serialReduction.linearize target source tree rejector T fs).1 = ⟨0, 0, 0⟩ ∧
    (serialReduction.linearize target source tree rejector T fs).2.countP GICPFactor.inlier
      = 0 ∧
    (serialReduction.linearize target source tree rejector T fs).2.length = fs.length := by
  have h := linearizeLoop_all_fail target source tree rejector T fs 0 ⟨0, 0, 0⟩
    (fun m hm f out => by rw [Nat.zero_add]; exact hfail m hm f out)
  exact ⟨h.1, h.2, linearizeLoop_length _ _ _ _ _ _ _ _⟩

theorem gn_body_all_fail (self : GaussNewtonOptimizer) (se3_exp : Vector6d → Isometry3d)
    (target source : PointCloud) (tree : TargetTree) (rejector : CorrespondenceRejector)
    (criteria : TerminationCriteria) (T0 : Isometry3d) (n : Nat)
    (hexp : se3_exp 0 = Isometry3d.Identity)
    (hfail : ∀ m, m < n → ∀ (f : GICPFactor) (out : LinearizeOut),
      (f.linearize target source tree T0 m rejector out).1 = false)
    (i : Nat) (st : OptState) (hT : st.result.T_target_source = T0)
    (hlen : st.factors.length = n) :
    (GaussNewtonOptimizer.body self se3_exp target source tree rejector criteria
      serialReduction i st).result.T_target_source = T0 ∧
    (GaussNewtonOptimizer.body self se3_exp target source tree rejector criteria
      serialReduction i st).factors.length = n ∧
    (GaussNewtonOptimizer.body self se3_exp target source tree rejector criteria
      serialReduction i st).factors.countP GICPFactor.inlier = 0 := by
  have h := serial_linearize_all_fail target source tree rejector T0 st.factors
    (fun m hm f out => hfail m (by omega) f out)
  simp only [GaussNewtonOptimizer.body, hT, h.1, ldlt_solve_zero, hexp, mul_Identity, h.2.1,
    h.2.2, hlen]
  exact ⟨trivial, trivial, trivial⟩

theorem gn_loop_all_fail (self : GaussNewtonOptimizer) (se3_exp : Vector6d → Isometry3d)
    (target source : PointCloud) (tree : TargetTree) (rejector : CorrespondenceRejector)
    (criteria : TerminationCriteria) (T0 : Isometry3d) (n : Nat)
    (hexp : se3_exp 0 = Isometry3d.Identity)
    (hfail : ∀ m, m < n → ∀ (f : GICPFactor) (out : LinearizeOut),
      (f.linearize target source tree T0 m rejector out).1 = false) :
    ∀ (fuel i : Nat) (st : OptState), st.result.T_target_source = T0 →
      st.factors.length = n → st.factors.countP GICPFactor.inlier = 0 →
      (GaussNewtonOptimizer.loop self se3_exp target source tree rejector criteria
        serialReduction fuel i st).1.result.T_target_source = T0 ∧
      (GaussNewtonOptimizer.loop self se3_exp target source tree rejector criteria
        serialReduction fuel i st).1.factors.countP GICPFactor.inlier = 0 := by
  intro fuel
  induction fuel with
  | zero => intro i st hT _ hc; exact ⟨hT, hc⟩
  | succ k ih =>
    intro i st hT hlen hc
    rw [GaussNewtonOptimizer.loop]
    split
    · exact ⟨hT, hc⟩
    · have hb := gn_body_all_fail self se3_exp target source tree rejector criteria T0 n hexp
        hfail i st hT hlen
      exact ih (i + 1) _ hb.1 hb.2.1 hb.2.2

/-- C11: if every factor's `linearize` fails at the current pose (empty tree, or every candidate
rejected), the summed `H` and `b` of the reduction are all-zero and `e` is 0; for every damping
`lambda != 0` the damped system `(H + lambda * I) * delta = -b` has `delta = 0` as its only
solution and the solve returns it; so with `se3_exp(0)` the identity the Gauss-Newton pose is
unchanged, and the result of `optimize` (run for at least one iteration) reports
`num_inliers = 0`. -/
theorem all_factors_fail (self : GaussNewtonOptimizer) (se3_exp : Vector6d → Isometry3d)
    (target source : PointCloud) (tree : TargetTree) (rejector : CorrespondenceRejector)
    (criteria : TerminationCriteria) (init_T : Isometry3d) (factors : List GICPFactor)
    (hmax : 1 ≤ self.max_iterations) (_hlambda : self.lambda ≠ 0)
    (hexp : se3_exp 0 = Isometry3d.Identity)
    (hfail : ∀ i (hi : i < factors.length),
      ((factors.get ⟨i, hi⟩).linearize target source tree init_T i rejector ⟨0, 0, 0⟩).1
        = false) :
    (serialReduction.linearize target source tree rejector init_T factors).1.H = 0 ∧
    (serialReduction.linearize target source tree rejector init_T factors).1.b = 0 ∧
    (serialReduction.linearize target source tree rejector init_T factors).1.e = 0 ∧
    (∀ lambda : ℚ, lambda ≠ 0 →
      ldlt_solve ((serialReduction.linearize target source tree rejector init_T factors).1.H
          + lambda • (1 : Matrix6d))
        (-(serialReduction.linearize target source tree rejector init_T factors).1.b) = 0 ∧
      ∀ delta : Vector6d,
        ((serialReduction.linearize target source tree rejector init_T factors).1.H
            + lambda • (1 : Matrix6d)).mulVec delta
          = -(serialReduction.linearize target source tree rejector init_T factors).1.b →
        delta = 0) ∧
    (GaussNewtonOptimizer.body self se3_exp target source tree rejector criteria serialReduction
      0 ⟨RegistrationResult.new init_T, factors⟩).result.T_target_source = init_T ∧
    (self.optimize se3_exp target source tree rejector criteria serialReduction init_T
      factors).1.T_target_source = init_T ∧
    (self.optimize se3_exp target source tree rejector criteria serialReduction init_T
      factors).1.num_inliers = 0 := by
  have hfail2 : ∀ m, m < factors.length → ∀ (f : GICPFactor) (out : LinearizeOut),
      (f.linearize target source tree init_T m rejector out).1 = false := by
    intro m hm f out
    rw [linearize_fst_indep f (factors.get ⟨m, hm⟩) target source tree init_T m rejector out
      ⟨0, 0, 0⟩]
    exact hfail m hm
  have hser := serial_linearize_all_fail target source tree rejector init_T factors hfail2
  have hb := gn_body_all_fail self se3_exp target source tree rejector criteria init_T
    factors.length hexp hfail2 0 ⟨RegistrationResult.new init_T, factors⟩ rfl rfl
  obtain ⟨n, hn⟩ : ∃ n, self.max_iterations.toNat = n + 1 :=
    ⟨self.max_iterations.toNat - 1, by omega⟩
  have hloop := gn_loop_all_fail self se3_exp target source tree rejector criteria init_T
    factors.length hexp hfail2 n 1 _ hb.1 hb.2.1 hb.2.2
  refine ⟨by rw [hser.1], by rw [hser.1], by rw [hser.1], fun lambda hl => ?_, hb.1, ?_, ?_⟩
  · rw [hser.1]
    refine ⟨ldlt_solve_zero _, fun delta hd => ?_⟩
    simp only [zero_add, neg_zero, Matrix.smul_mulVec_assoc, Matrix.one_mulVec] at hd
    exact (smul_eq_zero.mp hd).resolve_left hl
  · have h0 : (RegistrationResult.new init_T).converged = false := rfl
    simp only [GaussNewtonOptimizer.optimize, hn, GaussNewtonOptimizer.loop, h0,
      Bool.false_eq_true, if_false]
    exact hloop.1
  · have h0 : (RegistrationResult.new init_T).converged = false := rfl
    simp only [GaussNewtonOptimizer.optimize, hn, GaussNewtonOptimizer.loop, h0,
      Bool.false_eq_true, if_false]
    exact hloop.2

theorem all_factors_fail_witness :
    (GaussNewtonOptimizer.default.optimize se3_exp_lin cloudA cloudB treeEmpty
      (NullRejector.call {}) zeroStepCriteria serialReduction shiftX
      [GICPFactor.new, GICPFactor.new]).1.num_inliers = 0 ∧
    (GaussNewtonOptimizer.default.optimize se3_exp_lin cloudA cloudB treeEmpty
      (NullRejector.call {}) zeroStepCriteria serialReduction shiftX
      [GICPFactor.new, GICPFactor.new]).1.T_target_source = shiftX := by
  have h := all_factors_fail GaussNewtonOptimizer.default se3_exp_lin cloudA cloudB treeEmpty
    (NullRejector.call {}) zeroStepCriteria shiftX [GICPFactor.new, GICPFactor.new]
    (by decide) (by simp [GaussNewtonOptimizer.default]) se3_exp_lin_zero
    (fun i hi => by simp [GICPFactor.linearize, treeEmpty])
  exact ⟨h.2.2.2.2.2.2, h.2.2.2.2.2.1⟩

/-! ## The damped linear system -/

theorem dot_self_nonneg {n : Nat} (x : Fin n → ℚ) : 0 ≤ Matrix.dotProduct x x :=
  Finset.sum_nonneg (fun _ _ => mul_self_nonneg _)

theorem dot_self_pos {n : Nat} (x : Fin n → ℚ) (hx : x ≠ 0) : 0 < Matrix.dotProduct x x := by
  rcases (dot_self_nonneg x).lt_or_eq with h | h
  · exact h
  · exact absurd (Matrix.dotProduct_self_eq_zero.mp h.symm) hx

theorem SymmPosDef.det_ne_zero {n : Nat} {A : Matrix (Fin n) (Fin n) ℚ} (hA : SymmPosDef A) :
    A.det ≠ 0 := by
  intro hdet
  obtain ⟨v, hv, hAv⟩ := Matrix.exists_mulVec_eq_zero_iff.mpr hdet
  have := hA.2 v hv
  rw [hAv, Matrix.dotProduct_zero] at this
  exact lt_irrefl _ this

theorem SymmPosDef.toSemidef {n : Nat} {A : Matrix (Fin n) (Fin n) ℚ} (hA : SymmPosDef A) :
    SymmPosSemidef A := by
  refine ⟨hA.1, fun x => ?_⟩
  by_cases hx : x = 0
  · simp [hx]
  · exact (hA.2 x hx).le

theorem damped_quadratic {n : Nat} (H : Matrix (Fin n) (Fin n) ℚ) (lambda : ℚ)
    (x : Fin n → ℚ) :
    Matrix.dotProduct x ((H + lambda • (1 : Matrix (Fin n) (Fin n) ℚ)).mulVec x)
      = Matrix.dotProduct x (H.mulVec x) + lambda * Matrix.dotProduct x x := by
  rw [Matrix.add_mulVec, Matrix.dotProduct_add, Matrix.smul_mulVec_assoc, Matrix.one_mulVec,
    Matrix.dotProduct_smul, smul_eq_mul]

theorem SymmPosSemidef.add_smul_one {n : Nat} {H : Matrix (Fin n) (Fin n) ℚ}
    (hH : SymmPosSemidef H) {lambda : ℚ} (hl : 0 < lambda) :
    SymmPosDef (H + lambda • (1 : Matrix (Fin n) (Fin n) ℚ)) := by
  refine ⟨by rw [Matrix.transpose_add, hH.1, Matrix.transpose_smul, Matrix.transpose_one],
    fun x hx => ?_⟩
  rw [damped_quadratic]
  have h1 := hH.2 x
  have h2 := mul_pos hl (dot_self_pos x hx)
  linarith

theorem ldlt_solve_spec (A : Matrix6d) (b : Vector6d) (hA : A.det ≠ 0) :
    A.mulVec (ldlt_solve A b) = b := by
  unfold ldlt_solve
  rw [Matrix.mulVec_smul, Matrix.mulVec_mulVec, Matrix.mul_adjugate,
    Matrix.smul_mulVec_assoc, Matrix.one_mulVec, smul_smul, inv_mul_cancel₀ hA, one_smul]

theorem ldlt_solve_unique (A : Matrix6d) (b x : Vector6d) (hA : A.det ≠ 0)
    (hx : A.mulVec x = b) : x = ldlt_solve A b := by
  have h : ldlt_solve A (A.mulVec x) = x := by
    unfold ldlt_solve
    rw [Matrix.mulVec_mulVec, Matrix.adjugate_mul, Matrix.smul_mulVec_assoc,
      Matrix.one_mulVec, smul_smul, inv_mul_cancel₀ hA, one_smul]
  rw [← hx, h]

/-- The damped step solves the damped system and satisfies the energy identity. -/
theorem damped_step_energy (H : Matrix6d) (b : Vector6d) (lambda : ℚ)
    (hH : SymmPosSemidef H) (hl : 0 < lambda) :
    (H + lambda • (1 : Matrix6d)).mulVec (ldlt_solve (H + lambda • (1 : Matrix6d)) (-b)) = -b ∧
    Matrix.dotProduct (ldlt_solve (H + lambda • (1 : Matrix6d)) (-b))
        (H.mulVec (ldlt_solve (H + lambda • (1 : Matrix6d)) (-b)))
      + lambda * Matrix.dotProduct (ldlt_solve (H + lambda • (1 : Matrix6d)) (-b))
        (ldlt_solve (H + lambda • (1 : Matrix6d)) (-b))
      = -Matrix.dotProduct b (ldlt_solve (H + lambda • (1 : Matrix6d)) (-b)) := by
  have hpd : SymmPosDef (H + lambda • (1 : Matrix6d)) := SymmPosSemidef.add_smul_one hH hl
  have hs := ldlt_solve_spec (H + lambda • (1 : Matrix6d)) (-b) (SymmPosDef.det_ne_zero hpd)
  refine ⟨hs, ?_⟩
  rw [← damped_quadratic, hs, Matrix.dotProduct_neg, Matrix.dotProduct_comm]

/-! ## Size and direction of the damped step -/

/-- The squared form of the step bound: `lambda^2 * |delta|^2 <= |b|^2`. -/
theorem damped_step_sq_bound (H : Matrix6d) (b : Vector6d) (lambda : ℚ)
    (hH : SymmPosSemidef H) (hl : 0 < lambda) :
    lambda ^ 2 * Matrix.dotProduct (ldlt_solve (H + lambda • (1 : Matrix6d)) (-b))
        (ldlt_solve (H + lambda • (1 : Matrix6d)) (-b))
      ≤ Matrix.dotProduct b b := by
  have he := (damped_step_energy H b lambda hH hl).2
  generalize ldlt_solve (H + lambda • (1 : Matrix6d)) (-b) = d at he ⊢
  have hq := hH.2 d
  have hs := dot_self_nonneg d
  have hbb := dot_self_nonneg b
  have hcs : (Matrix.dotProduct b d) ^ 2 ≤ Matrix.dotProduct b b * Matrix.dotProduct d d := by
    simp only [Matrix.dotProduct]
    have := Finset.sum_mul_sq_le_sq_mul_sq Finset.univ b d
    simpa [pow_two] using this
  rcases hs.lt_or_eq with hpos | hzero
  · have h1 : lambda * Matrix.dotProduct d d ≤ -Matrix.dotProduct b d := by linarith
    have h0 : 0 ≤ lambda * Matrix.dotProduct d d := (mul_pos hl hpos).le
    have h2 : (lambda * Matrix.dotProduct d d) ^ 2 ≤ (Matrix.dotProduct b d) ^ 2 := by
      have := pow_le_pow_left₀ h0 h1 2
      simpa using this
    have h3 : (lambda ^ 2 * Matrix.dotProduct d d) * Matrix.dotProduct d d
        ≤ Matrix.dotProduct b b * Matrix.dotProduct d d := by
      calc (lambda ^ 2 * Matrix.dotProduct d d) * Matrix.dotProduct d d
          = (lambda * Matrix.dotProduct d d) ^ 2 := by ring
        _ ≤ (Matrix.dotProduct b d) ^ 2 := h2
        _ ≤ Matrix.dotProduct b b * Matrix.dotProduct d d := hcs
    exact le_of_mul_le_mul_right h3 hpos
  · rw [← hzero, mul_zero]
    exact hbb

/-- C13: for fixed symmetric positive-semidefinite `H` and fixed `b`, the Gauss-Newton step
`delta(lambda)` solves `(H + lambda * I) * delta = -b` and, for every `lambda > 0`, its norm is
at most `norm(b) / lambda` (also in squared form, `lambda^2 * |delta|^2 <= |b|^2`); so it tends
to 0 as `lambda` tends to infinity: for every `eps > 0` the norm is at most `eps` for all large
`lambda`. -/
theorem damped_step_bound (H : Matrix6d) (b : Vector6d) (hH : SymmPosSemidef H) :
    (∀ lambda : ℚ, 0 < lambda →
      (H + lambda • (1 : Matrix6d)).mulVec (ldlt_solve (H + lambda • (1 : Matrix6d)) (-b))
        = -b ∧
      lambda ^ 2 * Matrix.dotProduct (ldlt_solve (H + lambda • (1 : Matrix6d)) (-b))
          (ldlt_solve (H + lambda • (1 : Matrix6d)) (-b))
        ≤ Matrix.dotProduct b b ∧
      Real.sqrt ((Matrix.dotProduct (ldlt_solve (H + lambda • (1 : Matrix6d)) (-b))
          (ldlt_solve (H + lambda • (1 : Matrix6d)) (-b)) : ℚ) : ℝ)
        ≤ Real.sqrt ((Matrix.dotProduct b b : ℚ) : ℝ) / (lambda : ℝ)) ∧
    (∀ eps : ℚ, 0 < eps → ∃ bound : ℚ, 0 < bound ∧ ∀ lambda : ℚ, bound ≤ lambda →
      Real.sqrt ((Matrix.dotProduct (ldlt_solve (H + lambda • (1 : Matrix6d)) (-b))
          (ldlt_solve (H + lambda • (1 : Matrix6d)) (-b)) : ℚ) : ℝ)
        ≤ (eps : ℝ)) := by
  have hnorm : ∀ lambda : ℚ, 0 < lambda →
      Real.sqrt ((Matrix.dotProduct (ldlt_solve (H + lambda • (1 : Matrix6d)) (-b))
          (ldlt_solve (H + lambda • (1 : Matrix6d)) (-b)) : ℚ) : ℝ)
        ≤ Real.sqrt ((Matrix.dotProduct b b : ℚ) : ℝ) / (lambda : ℝ) := by
    intro lambda hl
    have hsq := damped_step_sq_bound H b lambda hH hl
    have hlr : (0 : ℝ) < (lambda : ℝ) := by exact_mod_cast hl
    have hsqr : (lambda : ℝ) ^ 2
        * ((Matrix.dotProduct (ldlt_solve (H + lambda • (1 : Matrix6d)) (-b))
          (ldlt_solve (H + lambda • (1 : Matrix6d)) (-b)) : ℚ) : ℝ)
        ≤ ((Matrix.dotProduct b b : ℚ) : ℝ) := by exact_mod_cast hsq
    generalize ((Matrix.dotProduct (ldlt_solve (H + lambda • (1 : Matrix6d)) (-b))
      (ldlt_solve (H + lambda • (1 : Matrix6d)) (-b)) : ℚ) : ℝ) = s at hsqr ⊢
    generalize ((Matrix.dotProduct b b : ℚ) : ℝ) = t at hsqr ⊢
    rw [le_div_iff₀ hlr]
    calc Real.sqrt s * (lambda : ℝ)
        = Real.sqrt s * Real.sqrt ((lambda : ℝ) ^ 2) := by rw [Real.sqrt_sq hlr.le]
      _ = Real.sqrt (s * (lambda : ℝ) ^ 2) := (Real.sqrt_mul' s (sq_nonneg _)).symm
      _ ≤ Real.sqrt t := Real.sqrt_le_sqrt (by rw [mul_comm]; exact hsqr)
  refine ⟨fun lambda hl => ⟨(damped_step_energy H b lambda hH hl).1,
    damped_step_sq_bound H b lambda hH hl, hnorm lambda hl⟩, fun eps heps => ?_⟩
  have hbb : (0 : ℝ) ≤ Real.sqrt ((Matrix.dotProduct b b : ℚ) : ℝ) := Real.sqrt_nonneg _
  have hepsr : (0 : ℝ) < (eps : ℝ) := by exact_mod_cast heps
  obtain ⟨q, hq⟩ := exists_rat_gt (Real.sqrt ((Matrix.dotProduct b b : ℚ) : ℝ) / (eps : ℝ))
  have hq0 : (0 : ℝ) < (q : ℝ) := lt_of_le_of_lt (div_nonneg hbb hepsr.le) hq
  refine ⟨q, by exact_mod_cast hq0, fun lambda hle => ?_⟩
  have hlr : (q : ℝ) ≤ (lambda : ℝ) := by exact_mod_cast hle
  have hl : 0 < lambda := by exact_mod_cast lt_of_lt_of_le hq0 hlr
  have hlr0 : (0 : ℝ) < (lambda : ℝ) := lt_of_lt_of_le hq0 hlr
  refine (hnorm lambda hl).trans ?_
  rw [div_le_iff₀ hlr0]
  have := (div_lt_iff₀ hepsr).mp hq
  nlinarith

theorem damped_step_bound_witness :
    SymmPosSemidef (0 : Matrix6d) ∧
    (2 : ℚ) ^ 2 * Matrix.dotProduct (ldlt_solve ((0 : Matrix6d) + (2 : ℚ) • (1 : Matrix6d))
          (-![1, 0, 0, 0, 0, 0]))
        (ldlt_solve ((0 : Matrix6d) + (2 : ℚ) • (1 : Matrix6d)) (-![1, 0, 0, 0, 0, 0]))
      ≤ Matrix.dotProduct ![1, 0, 0, 0, 0, 0] ![1, 0, 0, 0, 0, 0] := by
  have hH : SymmPosSemidef (0 : Matrix6d) := ⟨Matrix.transpose_zero, fun x => by simp⟩
  exact ⟨hH, ((damped_step_bound 0 ![1, 0, 0, 0, 0, 0] hH).1 2 (by norm_num)).2.1⟩

/-- C20: for symmetric positive-semidefinite `H`, every `b` and every `lambda > 0`, the step
`delta = -(H + lambda * I)^(-1) * b` that both optimizers propose is a descent direction of the
linearized cost: `b^T * delta <= 0`, with equality exactly when `b = 0`, and the quadratic model
`e + b^T * delta + 0.5 * delta^T * H * delta` does not exceed `e`. -/
theorem damped_step_descent (H : Matrix6d) (b : Vector6d) (e lambda : ℚ)
    (hH : SymmPosSemidef H) (hl : 0 < lambda) :
    ldlt_solve (H + lambda • (1 : Matrix6d)) (-b)
      = -((H + lambda • (1 : Matrix6d))⁻¹.mulVec b) ∧
    Matrix.dotProduct b (ldlt_solve (H + lambda • (1 : Matrix6d)) (-b)) ≤ 0 ∧
    (Matrix.dotProduct b (ldlt_solve (H + lambda • (1 : Matrix6d)) (-b)) = 0 ↔ b = 0) ∧
    e + Matrix.dotProduct b (ldlt_solve (H + lambda • (1 : Matrix6d)) (-b))
        + (1 / 2) * Matrix.dotProduct (ldlt_solve (H + lambda • (1 : Matrix6d)) (-b))
          (H.mulVec (ldlt_solve (H + lambda • (1 : Matrix6d)) (-b)))
      ≤ e := by
  have hinv : ldlt_solve (H + lambda • (1 : Matrix6d)) (-b)
      = -((H + lambda • (1 : Matrix6d))⁻¹.mulVec b) := by
    unfold ldlt_solve
    rw [Matrix.inv_def, Ring.inverse_eq_inv', Matrix.mulVec_neg, Matrix.smul_mulVec_assoc,
      smul_neg]
  obtain ⟨hs, he⟩ := damped_step_energy H b lambda hH hl
  generalize ldlt_solve (H + lambda • (1 : Matrix6d)) (-b) = d at hs he hinv ⊢
  have hq := hH.2 d
  have hdd := dot_self_nonneg d
  have hmul := mul_nonneg hl.le hdd
  refine ⟨hinv, by linarith, ⟨fun h0 => ?_, fun hb => by rw [hb, Matrix.zero_dotProduct]⟩,
    by linarith⟩
  have hz : Matrix.dotProduct d d = 0 := by
    have : lambda * Matrix.dotProduct d d = 0 := by linarith
    exact (mul_eq_zero.mp this).resolve_left hl.ne'
  have hd : d = 0 := Matrix.dotProduct_self_eq_zero.mp hz
  rw [hd, Matrix.mulVec_zero] at hs
  exact neg_eq_zero.mp hs.symm

theorem damped_step_descent_witness :
    SymmPosSemidef (0 : Matrix6d) ∧
    Matrix.dotProduct ![1, 0, 0, 0, 0, 0]
      (ldlt_solve ((0 : Matrix6d) + (2 : ℚ) • (1 : Matrix6d)) (-![1, 0, 0, 0, 0, 0])) ≤ 0 := by
  have hH : SymmPosSemidef (0 : Matrix6d) := ⟨Matrix.transpose_zero, fun x => by simp⟩
  exact ⟨hH, (damped_step_descent 0 ![1, 0, 0, 0, 0, 0] 0 2 hH (by norm_num)).2.1⟩

/-! ## The Jacobian of the residual -/

theorem jacobian_mulVec (T : Isometry3d) (p : Vector4d) (delta : Vector6d) :
    (GICPFactor.jacobian T p).mulVec delta =
      ![T.linear 0 0 * (p 1 * delta 2 - p 2 * delta 1 - delta 3)
          + T.linear 0 1 * (p 2 * delta 0 - p 0 * delta 2 - delta 4)
          + T.linear 0 2 * (p 0 * delta 1 - p 1 * delta 0 - delta 5),
        T.linear 1 0 * (p 1 * delta 2 - p 2 * delta 1 - delta 3)
          + T.linear 1 1 * (p 2 * delta 0 - p 0 * delta 2 - delta 4)
          + T.linear 1 2 * (p 0 * delta 1 - p 1 * delta 0 - delta 5),
        T.linear 2 0 * (p 1 * delta 2 - p 2 * delta 1 - delta 3)
          + T.linear 2 1 * (p 2 * delta 0 - p 0 * delta 2 - delta 4)
          + T.linear 2 2 * (p 0 * delta 1 - p 1 * delta 0 - delta 5),
        0] := by
  ext i
  fin_cases i <;>
    simp [GICPFactor.jacobian, Matrix.mulVec, Matrix.dotProduct, Fin.sum_univ_six,
      Fin.sum_univ_three, Matrix.mul_apply, skew, head3, Matrix.vecHead, Matrix.vecTail,
      vec6_five] <;> ring

theorem perturbed_mulVec (T : Isometry3d) (p : Vector4d) (delta : Vector6d) :
    (T.matrix * (1 + se3_hat delta)).mulVec p =
      ![(T.matrix.mulVec p) 0
          + (T.linear 0 0 * (delta 1 * p 2 - delta 2 * p 1 + delta 3 * p 3)
            + T.linear 0 1 * (delta 2 * p 0 - delta 0 * p 2 + delta 4 * p 3)
            + T.linear 0 2 * (delta 0 * p 1 - delta 1 * p 0 + delta 5 * p 3)),
        (T.matrix.mulVec p) 1
          + (T.linear 1 0 * (delta 1 * p 2 - delta 2 * p 1 + delta 3 * p 3)
            + T.linear 1 1 * (delta 2 * p 0 - delta 0 * p 2 + delta 4 * p 3)
            + T.linear 1 2 * (delta 0 * p 1 - delta 1 * p 0 + delta 5 * p 3)),
        (T.matrix.mulVec p) 2
          + (T.linear 2 0 * (delta 1 * p 2 - delta 2 * p 1 + delta 3 * p 3)
            + T.linear 2 1 * (delta 2 * p 0 - delta 0 * p 2 + delta 4 * p 3)
            + T.linear 2 2 * (delta 0 * p 1 - delta 1 * p 0 + delta 5 * p 3)),
        p 3] := by
  rw [Matrix.mul_add, Matrix.mul_one, Matrix.add_mulVec, ← Matrix.mulVec_mulVec]
  have hh : (se3_hat delta).mulVec p =
      ![delta 1 * p 2 - delta 2 * p 1 + delta 3 * p 3,
        delta 2 * p 0 - delta 0 * p 2 + delta 4 * p 3,
        delta 0 * p 1 - delta 1 * p 0 + delta 5 * p 3, 0] := by
    ext i
    fin_cases i <;>
      simp [se3_hat, Matrix.mulVec, Matrix.dotProduct, Fin.sum_univ_four, Matrix.vecHead,
        Matrix.vecTail] <;> ring
  rw [hh]
  ext i
  fin_cases i <;>
    simp [Isometry3d.matrix, Matrix.mulVec, Matrix.dotProduct, Fin.sum_univ_four,
      Matrix.vecHead, Matrix.vecTail] <;> ring

/-- C14: the matrix `J` built by `linearize` is the Jacobian of the residual `r(T) =
point_target[j] - T * p` for a right-multiplicative tangent perturbation ordered
`[rotation; translation]`: for every pose `T`, every target point `q`, every source point `p`
with homogeneous coordinate 1 and every `delta = [omega; v]`, the residual at the first-order
perturbed pose `T * (I + hat(delta))` equals `r(T) + J * delta`. -/
theorem jacobian_first_order (T : Isometry3d) (q p : Vector4d) (delta : Vector6d)
    (hp : p 3 = 1) :
    q - (T.matrix * (1 + se3_hat delta)).mulVec p
      = (q - T.apply p) + (GICPFactor.jacobian T p).mulVec delta ∧
    (T.mul (se3_exp_lin delta)).matrix = T.matrix * (1 + se3_hat delta) ∧
    q - (T.mul (se3_exp_lin delta)).apply p
      = (q - T.apply p) + (GICPFactor.jacobian T p).mulVec delta := by
  have h1 : q - (T.matrix * (1 + se3_hat delta)).mulVec p
      = (q - T.apply p) + (GICPFactor.jacobian T p).mulVec delta := by
    rw [perturbed_mulVec, jacobian_mulVec, hp]
    ext i
    have h3 : (Fin.succ (2 : Fin 3)) = (3 : Fin 4) := rfl
    fin_cases i <;> simp [Isometry3d.apply, Matrix.vecHead, Matrix.vecTail, h3, hp] <;> ring
  have h2 : (T.mul (se3_exp_lin delta)).matrix = T.matrix * (1 + se3_hat delta) := by
    ext i j
    fin_cases i <;> fin_cases j <;>
      simp only [Matrix.mul_apply, Fin.sum_univ_four] <;>
      simp [Isometry3d.matrix, Isometry3d.mul, se3_exp_lin, se3_hat, skew, Matrix.mul_apply,
        Fin.sum_univ_three, Matrix.add_apply, Matrix.one_apply, Matrix.mulVec,
        Matrix.dotProduct, Matrix.vecHead, Matrix.vecTail]
  refine ⟨h1, h2, ?_⟩
  rw [← h1]
  congr 1
  ext i
  fin_cases i <;> simp [Isometry3d.apply, h2, perturbed_mulVec]

theorem jacobian_first_order_witness :
    (![1, 0, 0, 1] : Vector4d) 3 = 1 ∧
    ![0, 0, 0, 1] - (shiftX.matrix * (1 + se3_hat ![0, 0, 1, 0, 0, 0])).mulVec ![1, 0, 0, 1]
      = (![0, 0, 0, 1] - shiftX.apply ![1, 0, 0, 1])
        + (GICPFactor.jacobian shiftX ![1, 0, 0, 1]).mulVec ![0, 0, 1, 0, 0, 0] :=
  ⟨rfl, (jacobian_first_order shiftX ![0, 0, 0, 1] ![1, 0, 0, 1] ![0, 0, 1, 0, 0, 0] rfl).1⟩

/-! ## The damping update of Levenberg-Marquardt -/

theorem lm_inner_all_reject (self : LevenbergMarquardtOptimizer)
    (se3_exp : Vector6d → Isometry3d) (target source : PointCloud)
    (criteria : TerminationCriteria) (reduction : Reduction) (lin : LinearizeOut)
    (factors : List GICPFactor) (result : RegistrationResult) :
    ∀ (fuel : Nat) (lambda : ℚ),
      (∀ j, j < fuel → LevenbergMarquardtOptimizer.trialAccepted se3_exp target source
        reduction lin factors result (lambda * self.lambda_factor ^ j) = false) →
      LevenbergMarquardtOptimizer.inner self se3_exp target source criteria reduction lin
        factors fuel lambda result = (lambda * self.lambda_factor ^ fuel, result, false) := by
  intro fuel
  induction fuel with
  | zero => intro lambda _; simp [LevenbergMarquardtOptimizer.inner]
  | succ n ih =>
    intro lambda h
    have h0 := h 0 (by omega)
    simp only [pow_zero, mul_one, LevenbergMarquardtOptimizer.trialAccepted,
      decide_eq_false_iff_not] at h0
    rw [LevenbergMarquardtOptimizer.inner]
    simp only [h0, if_false]
    rw [ih (lambda * self.lambda_factor) (fun j hj => by
      have := h (j + 1) (by omega)
      rwa [pow_succ', ← mul_assoc] at this)]
    rw [pow_succ', mul_assoc]

theorem lm_inner_accept_at (self : LevenbergMarquardtOptimizer)
    (se3_exp : Vector6d → Isometry3d) (target source : PointCloud)
    (criteria : TerminationCriteria) (reduction : Reduction) (lin : LinearizeOut)
    (factors : List GICPFactor) (result : RegistrationResult) :
    ∀ (k fuel : Nat) (lambda : ℚ), k < fuel →
      (∀ j, j < k → LevenbergMarquardtOptimizer.trialAccepted se3_exp target source
        reduction lin factors result (lambda * self.lambda_factor ^ j) = false) →
      LevenbergMarquardtOptimizer.trialAccepted se3_exp target source reduction lin factors
        result (lambda * self.lambda_factor ^ k) = true →
      (LevenbergMarquardtOptimizer.inner self se3_exp target source criteria reduction lin
        factors fuel lambda result).1 = lambda * self.lambda_factor ^ k / self.lambda_factor ∧
      (LevenbergMarquardtOptimizer.inner self se3_exp target source criteria reduction lin
        factors fuel lambda result).2.2 = true := by
  intro k
  induction k with
  | zero =>
    intro fuel lambda hk _ hacc
    obtain ⟨n, rfl⟩ : ∃ n, fuel = n + 1 := ⟨fuel - 1, by omega⟩
    simp only [pow_zero, mul_one, LevenbergMarquardtOptimizer.trialAccepted,
      decide_eq_true_eq] at hacc
    rw [LevenbergMarquardtOptimizer.inner]
    simp [hacc]
  | succ k ih =>
    intro fuel lambda hk hrej hacc
    obtain ⟨n, rfl⟩ : ∃ n, fuel = n + 1 := ⟨fuel - 1, by omega⟩
    have h0 := hrej 0 (by omega)
    simp only [pow_zero, mul_one, LevenbergMarquardtOptimizer.trialAccepted,
      decide_eq_false_iff_not] at h0
    rw [LevenbergMarquardtOptimizer.inner]
    simp only [h0, if_false]
    have := ih n (lambda * self.lambda_factor) (by omega)
      (fun j hj => by
        have := hrej (j + 1) (by omega)
        rwa [pow_succ', ← mul_assoc] at this)
      (by rwa [pow_succ', ← mul_assoc] at hacc)
    rw [this.1, this.2, pow_succ', mul_assoc]
    exact ⟨rfl, rfl⟩

/-- C17: the damping update of one outer iteration of `LevenbergMarquardtOptimizer::optimize`
that starts with damping `lambda` and factor `f = lambda_factor`: if the first `k` inner trials
are rejected and trial `k` (0-based, `k < max_inner_iterations`) is accepted, the damping after
the iteration is `lambda * f^k / f`; if all `max_inner_iterations` trials are rejected, the
damping after the iteration is `lambda * f^max_inner_iterations`, the pose is unchanged, and
the next outer iteration starts its inner loop from this grown damping. -/
theorem lm_damping_update (self : LevenbergMarquardtOptimizer)
    (se3_exp : Vector6d → Isometry3d) (target source : PointCloud) (target_tree : TargetTree)
    (rejector : CorrespondenceRejector) (criteria : TerminationCriteria) (reduction : Reduction)
    (i : Nat) (st : LMState) :
    (∀ k : Nat, (k : ℤ) < self.max_inner_iterations →
      (∀ j, j < k → LevenbergMarquardtOptimizer.trialAccepted se3_exp target source reduction
        (reduction.linearize target source target_tree rejector st.result.T_target_source
          st.factors).1
        (reduction.linearize target source target_tree rejector st.result.T_target_source
          st.factors).2 st.result (st.lambda * self.lambda_factor ^ j) = false) →
      LevenbergMarquardtOptimizer.trialAccepted se3_exp target source reduction
        (reduction.linearize target source target_tree rejector st.result.T_target_source
          st.factors).1
        (reduction.linearize target source target_tree rejector st.result.T_target_source
          st.factors).2 st.result (st.lambda * self.lambda_factor ^ k) = true →
      (LevenbergMarquardtOptimizer.body self se3_exp target source target_tree rejector
        criteria reduction i st).lambda
        = st.lambda * self.lambda_factor ^ k / self.lambda_factor) ∧
    ((∀ j : Nat, (j : ℤ) < self.max_inner_iterations →
        LevenbergMarquardtOptimizer.trialAccepted se3_exp target source reduction
          (reduction.linearize target source target_tree rejector st.result.T_target_source
            st.factors).1
          (reduction.linearize target source target_tree rejector st.result.T_target_source
            st.factors).2 st.result (st.lambda * self.lambda_factor ^ j) = false) →
      (LevenbergMarquardtOptimizer.body self se3_exp target source target_tree rejector
        criteria reduction i st).lambda
        = st.lambda * self.lambda_factor ^ self.max_inner_iterations.toNat ∧
      (LevenbergMarquardtOptimizer.body self se3_exp target source target_tree rejector
        criteria reduction i st).result.T_target_source = st.result.T_target_source ∧
      LevenbergMarquardtOptimizer.body self se3_exp target source target_tree rejector criteria
          reduction (i + 1)
          (LevenbergMarquardtOptimizer.body self se3_exp target source target_tree rejector
            criteria reduction i st)
        = LevenbergMarquardtOptimizer.body self se3_exp target source target_tree rejector
          criteria reduction (i + 1)
          ⟨st.lambda * self.lambda_factor ^ self.max_inner_iterations.toNat,
            (LevenbergMarquardtOptimizer.body self se3_exp target source target_tree rejector
              criteria reduction i st).result,
            (LevenbergMarquardtOptimizer.body self se3_exp target source target_tree rejector
              criteria reduction i st).factors⟩) := by
  constructor
  · intro k hk hrej hacc
    have h := lm_inner_accept_at self se3_exp target source criteria reduction
      (reduction.linearize target source target_tree rejector st.result.T_target_source
        st.factors).1
      (reduction.linearize target source target_tree rejector st.result.T_target_source
        st.factors).2 st.result k self.max_inner_iterations.toNat st.lambda (by omega) hrej hacc
    simp only [LevenbergMarquardtOptimizer.body, h.1]
  · intro hrej
    have h := lm_inner_all_reject self se3_exp target source criteria reduction
      (reduction.linearize target source target_tree rejector st.result.T_target_source
        st.factors).1
      (reduction.linearize target source target_tree rejector st.result.T_target_source
        st.factors).2 st.result self.max_inner_iterations.toNat st.lambda
      (fun j hj => hrej j (by omega))
    have hl : (LevenbergMarquardtOptimizer.body self se3_exp target source target_tree rejector
        criteria reduction i st).lambda
        = st.lambda * self.lambda_factor ^ self.max_inner_iterations.toNat := by
      simp only [LevenbergMarquardtOptimizer.body, h]
    refine ⟨hl, by simp only [LevenbergMarquardtOptimizer.body, h], ?_⟩
    rw [← hl]

theorem lm_damping_update_witness :
    LevenbergMarquardtOptimizer.trialAccepted se3_exp_lin cloudA cloudB stepDownReduction
      (stepDownReduction.linearize cloudA cloudB treeZero (NullRejector.call {})
        Isometry3d.Identity [GICPFactor.new]).1
      (stepDownReduction.linearize cloudA cloudB treeZero (NullRejector.call {})
        Isometry3d.Identity [GICPFactor.new]).2
      (RegistrationResult.new Isometry3d.Identity)
      (LevenbergMarquardtOptimizer.default.init_lambda
        * LevenbergMarquardtOptimizer.default.lambda_factor ^ 0) = true ∧
    (LevenbergMarquardtOptimizer.body LevenbergMarquardtOptimizer.default se3_exp_lin cloudA
      cloudB treeZero (NullRejector.call {}) zeroStepCriteria stepDownReduction 0
      ⟨LevenbergMarquardtOptimizer.default.init_lambda,
        RegistrationResult.new Isometry3d.Identity, [GICPFactor.new]⟩).lambda
      = LevenbergMarquardtOptimizer.default.init_lambda
        * LevenbergMarquardtOptimizer.default.lambda_factor ^ 0
        / LevenbergMarquardtOptimizer.default.lambda_factor := by
  have hacc : LevenbergMarquardtOptimizer.trialAccepted se3_exp_lin cloudA cloudB
      stepDownReduction
      (stepDownReduction.linearize cloudA cloudB treeZero (NullRejector.call {})
        Isometry3d.Identity [GICPFactor.new]).1
      (stepDownReduction.linearize cloudA cloudB treeZero (NullRejector.call {})
        Isometry3d.Identity [GICPFactor.new]).2
      (RegistrationResult.new Isometry3d.Identity)
      (LevenbergMarquardtOptimizer.default.init_lambda
        * LevenbergMarquardtOptimizer.default.lambda_factor ^ 0) = true := by
    simp [LevenbergMarquardtOptimizer.trialAccepted, stepDownReduction]
  exact ⟨hacc, (lm_damping_update LevenbergMarquardtOptimizer.default se3_exp_lin cloudA cloudB
    treeZero (NullRejector.call {}) zeroStepCriteria stepDownReduction 0
    ⟨LevenbergMarquardtOptimizer.default.init_lambda,
      RegistrationResult.new Isometry3d.Identity, [GICPFactor.new]⟩).1 0 (by decide)
    (fun j hj => absurd hj (by omega)) hacc⟩

/-! ## The inlier count -/

theorem jacobian_eq_pad (T : Isometry3d) (p : Vector4d) :
    GICPFactor.jacobian T p = pad43 * GICPFactor.jacobian3 T p := by
  ext i j
  fin_cases i <;> fin_cases j <;>
    simp [GICPFactor.jacobian, GICPFactor.jacobian3, pad43, Matrix.mul_apply,
      Fin.sum_univ_three, Matrix.vecHead, Matrix.vecTail, vec6_five]

theorem pad_block3 (M : Matrix4d) : pad43.transpose * M * pad43 = block3 M := by
  ext i j
  fin_cases i <;> fin_cases j <;>
    simp [pad43, block3, Matrix.mul_apply, Fin.sum_univ_four, Fin.sum_univ_three,
      Matrix.vecHead, Matrix.vecTail]

/-- The `H` of `linearize` in terms of the 3x3 weighting block only. -/
theorem H_eq_block (T : Isometry3d) (p : Vector4d) (M : Matrix4d) (W : Matrix3d) :
    (GICPFactor.jacobian T p).transpose * setBlock3 M W * GICPFactor.jacobian T p
      = (GICPFactor.jacobian3 T p).transpose * W * GICPFactor.jacobian3 T p := by
  rw [jacobian_eq_pad, Matrix.transpose_mul]
  have h := pad_block3 (setBlock3 M W)
  rw [block3_setBlock3] at h
  calc (GICPFactor.jacobian3 T p).transpose * pad43.transpose * setBlock3 M W
        * (pad43 * GICPFactor.jacobian3 T p)
      = (GICPFactor.jacobian3 T p).transpose * (pad43.transpose * setBlock3 M W * pad43)
        * GICPFactor.jacobian3 T p := by simp only [Matrix.mul_assoc]
    _ = _ := by rw [h]

theorem SymmPosDef.inv {n : Nat} {A : Matrix (Fin n) (Fin n) ℚ} (hA : SymmPosDef A) :
    SymmPosDef A⁻¹ := by
  have hdet := SymmPosDef.det_ne_zero hA
  have hu : IsUnit A.det := isUnit_iff_ne_zero.mpr hdet
  refine ⟨by rw [Matrix.transpose_nonsing_inv, hA.1], fun x hx => ?_⟩
  have hy : A⁻¹.mulVec x ≠ 0 := by
    intro h0
    have : A.mulVec (A⁻¹.mulVec x) = x := by
      rw [Matrix.mulVec_mulVec, Matrix.mul_nonsing_inv A hu, Matrix.one_mulVec]
    rw [h0, Matrix.mulVec_zero] at this
    exact hx this.symm
  have hpos := hA.2 _ hy
  rw [Matrix.mulVec_mulVec, Matrix.mul_nonsing_inv A hu, Matrix.one_mulVec,
    Matrix.dotProduct_comm] at hpos
  exact hpos

theorem SymmPosSemidef.conj {m n : Nat} {A : Matrix (Fin n) (Fin n) ℚ}
    (hA : SymmPosSemidef A) (B : Matrix (Fin n) (Fin m) ℚ) :
    SymmPosSemidef (B.transpose * A * B) := by
  refine ⟨by rw [Matrix.transpose_mul, Matrix.transpose_mul, Matrix.transpose_transpose, hA.1,
    Matrix.mul_assoc], fun x => ?_⟩
  have := hA.2 (B.mulVec x)
  rw [← Matrix.mulVec_mulVec, ← Matrix.mulVec_mulVec, Matrix.dotProduct_mulVec,
    Matrix.vecMul_transpose]
  exact this

theorem SymmPosSemidef.add {n : Nat} {A B : Matrix (Fin n) (Fin n) ℚ}
    (hA : SymmPosSemidef A) (hB : SymmPosSemidef B) : SymmPosSemidef (A + B) := by
  refine ⟨by rw [Matrix.transpose_add, hA.1, hB.1], fun x => ?_⟩
  rw [Matrix.add_mulVec, Matrix.dotProduct_add]
  exact add_nonneg (hA.2 x) (hB.2 x)

theorem SymmPosDef.add_semidef {n : Nat} {A B : Matrix (Fin n) (Fin n) ℚ}
    (hA : SymmPosDef A) (hB : SymmPosSemidef B) : SymmPosDef (A + B) := by
  refine ⟨by rw [Matrix.transpose_add, hA.1, hB.1], fun x hx => ?_⟩
  rw [Matrix.add_mulVec, Matrix.dotProduct_add]
  exact add_pos_of_pos_of_nonneg (hA.2 x hx) (hB.2 x)

theorem symmPosSemidef_zero {n : Nat} : SymmPosSemidef (0 : Matrix (Fin n) (Fin n) ℚ) :=
  ⟨Matrix.transpose_zero, fun x => by simp⟩

/-- The 3x3 block of `T.matrix() * C * T.matrix().transpose()` is symmetric positive
semidefinite for a covariance matrix `C`, whatever its fourth row and column are. -/
theorem block3_conj_psd (T : Isometry3d) (C : Matrix4d) (hC : SymmPosSemidef C) :
    SymmPosSemidef (block3 (T.matrix * C * T.matrix.transpose)) := by
  rw [← pad_block3]
  have h := SymmPosSemidef.conj hC (T.matrix.transpose * pad43)
  rw [Matrix.transpose_mul, Matrix.transpose_transpose] at h
  have heq : pad43.transpose * T.matrix * C * (T.matrix.transpose * pad43)
      = pad43.transpose * (T.matrix * C * T.matrix.transpose) * pad43 := by
    simp only [Matrix.mul_assoc]
  rw [← heq]
  exact h

/-- The weighting block of a successful `linearize` is symmetric positive definite. -/
theorem weight_posDef (T : Isometry3d) (Ct Cs : Matrix4d)
    (ht : SymmPosDef (block3 Ct)) (hs : SymmPosSemidef Cs) :
    SymmPosDef (inverse3 (block3 (Ct + T.matrix * Cs * T.matrix.transpose))) := by
  rw [inverse3_eq_inv, block3_add]
  exact SymmPosDef.inv (SymmPosDef.add_semidef ht (block3_conj_psd T Cs hs))

/-! ## Positive semidefiniteness of `H` -/

theorem symmPosDef_one {n : Nat} : SymmPosDef (1 : Matrix (Fin n) (Fin n) ℚ) := by
  refine ⟨Matrix.transpose_one, fun x hx => ?_⟩
  rw [Matrix.one_mulVec]
  exact dot_self_pos x hx

theorem symmPosSemidef_one {n : Nat} : SymmPosSemidef (1 : Matrix (Fin n) (Fin n) ℚ) :=
  SymmPosDef.toSemidef symmPosDef_one

theorem covarianceCloud_cloudA : CovarianceCloud cloudA := by
  intro i
  refine ⟨symmPosSemidef_one, ?_⟩
  have : block3 (cloudA.cov i) = 1 := by simp [cloudA, block3_one]
  rw [this]
  exact symmPosDef_one

theorem covarianceCloud_cloudB : CovarianceCloud cloudB := by
  intro i
  refine ⟨symmPosSemidef_one, ?_⟩
  have : block3 (cloudB.cov i) = 1 := by simp [cloudB, block3_one]
  rw [this]
  exact symmPosDef_one

/-- The `H` of a successful `linearize` is symmetric positive semidefinite when the covariance
blocks are positive definite and the source covariances are covariance matrices. -/
theorem linearize_H_psd (self : GICPFactor) (target source : PointCloud)
    (target_tree : TargetTree) (T : Isometry3d) (source_index : Nat)
    (rejector : CorrespondenceRejector) (out : LinearizeOut)
    (hok : (self.linearize target source target_tree T source_index rejector out).1 = true)
    (ht : ∀ j, SymmPosDef (block3 (target.cov j)))
    (hs : CovarianceCloud source) :
    SymmPosSemidef
      (self.linearize target source target_tree T source_index rejector out).2.2.H := by
  cases hk : target_tree.knn_search (T.apply (source.point source_index)) with
  | none => simp [linearize_none _ _ _ _ _ _ _ _ hk] at hok
  | some kd =>
    obtain ⟨k, d⟩ := kd
    cases hr : rejector T k source_index d with
    | true => simp [linearize_reject _ _ _ _ _ _ _ _ k d hk hr] at hok
    | false =>
      rw [linearize_accept _ _ _ _ _ _ _ _ k d hk hr]
      simp only
      rw [H_eq_block]
      exact SymmPosSemidef.conj (SymmPosDef.toSemidef (weight_posDef T _ _ (ht k)
        (hs source_index).1)) _

theorem linearizeLoop_H_psd (target source : PointCloud) (tree : TargetTree)
    (rejector : CorrespondenceRejector) (T : Isometry3d)
    (ht : ∀ j, SymmPosDef (block3 (target.cov j)))
    (hs : CovarianceCloud source) :
    ∀ (fs : List GICPFactor) (i : Nat) (sum : LinearizeOut), SymmPosSemidef sum.H →
      SymmPosSemidef (SerialReduction.linearizeLoop target source tree rejector T i fs sum).1.H
      := by
  intro fs
  induction fs with
  | nil => intro i sum h; exact h
  | cons f fs ih =>
    intro i sum h
    simp only [SerialReduction.linearizeLoop]
    apply ih
    cases hok : (f.linearize target source tree T i rejector ⟨0, 0, 0⟩).1 with
    | true =>
      simp only [if_true]
      exact SymmPosSemidef.add h
        (linearize_H_psd f target source tree T i rejector ⟨0, 0, 0⟩ hok ht hs)
    | false => simpa using h

/-- C15: if the 3x3 blocks of the target and source covariances are symmetric positive
definite, the source covariances being covariance matrices (symmetric positive semidefinite
4x4, with any fourth row and column), then for every pose each successful `linearize` writes
an `H = J^T * W * J` that is symmetric positive semidefinite; hence the `H` summed by the
reduction over any factors is symmetric positive semidefinite and, for every `lambda > 0`,
`H + lambda * I` is symmetric positive definite and the damped system
`(H + lambda * I) * delta = -b` has exactly one solution, the one that the solve returns. -/
theorem linearize_H_posSemidef (self : GICPFactor) (target source : PointCloud)
    (target_tree : TargetTree) (T : Isometry3d) (source_index : Nat)
    (rejector : CorrespondenceRejector) (out : LinearizeOut)
    (hok : (self.linearize target source target_tree T source_index rejector out).1 = true)
    (ht : ∀ j, SymmPosDef (block3 (target.cov j)))
    (hs : CovarianceCloud source) :
    SymmPosSemidef
      (self.linearize target source target_tree T source_index rejector out).2.2.H ∧
    (∀ (factors : List GICPFactor) (T2 : Isometry3d),
      SymmPosSemidef
        (serialReduction.linearize target source target_tree rejector T2 factors).1.H ∧
      ∀ lambda : ℚ, 0 < lambda →
        SymmPosDef ((serialReduction.linearize target source target_tree rejector T2
          factors).1.H + lambda • (1 : Matrix6d)) ∧
        (∃! delta : Vector6d,
          ((serialReduction.linearize target source target_tree rejector T2 factors).1.H
              + lambda • (1 : Matrix6d)).mulVec delta
            = -(serialReduction.linearize target source target_tree rejector T2
              factors).1.b) ∧
        ((serialReduction.linearize target source target_tree rejector T2 factors).1.H
            + lambda • (1 : Matrix6d)).mulVec
          (ldlt_solve ((serialReduction.linearize target source target_tree rejector T2
              factors).1.H + lambda • (1 : Matrix6d))
            (-(serialReduction.linearize target source target_tree rejector T2 factors).1.b))
          = -(serialReduction.linearize target source target_tree rejector T2 factors).1.b) :=
  by
  refine ⟨linearize_H_psd self target source target_tree T source_index rejector out hok ht hs,
    fun factors T2 => ?_⟩
  have hsum : SymmPosSemidef
      (serialReduction.linearize target source target_tree rejector T2 factors).1.H :=
    linearizeLoop_H_psd target source target_tree rejector T2 ht hs factors 0
      ⟨0, 0, 0⟩ symmPosSemidef_zero
  refine ⟨hsum, fun lambda hl => ?_⟩
  have hpd : SymmPosDef ((serialReduction.linearize target source target_tree rejector T2
      factors).1.H + lambda • (1 : Matrix6d)) := SymmPosSemidef.add_smul_one hsum hl
  have hdet := SymmPosDef.det_ne_zero hpd
  have hsol := ldlt_solve_spec _
    (-(serialReduction.linearize target source target_tree rejector T2 factors).1.b) hdet
  exact ⟨hpd, ⟨_, hsol, fun y hy => ldlt_solve_unique _ _ y hdet hy⟩, hsol⟩

theorem linearize_H_posSemidef_witness :
    (GICPFactor.new.linearize cloudA cloudB treeZero shiftX 0 (NullRejector.call {}) out0).1
      = true ∧
    (∀ j, SymmPosDef (block3 (cloudA.cov j))) ∧
    CovarianceCloud cloudB ∧
    SymmPosSemidef (GICPFactor.new.linearize cloudA cloudB treeZero shiftX 0
      (NullRejector.call {}) out0).2.2.H := by
  have hok : (GICPFactor.new.linearize cloudA cloudB treeZero shiftX 0
      (NullRejector.call {}) out0).1 = true := by
    simp [GICPFactor.linearize, treeZero, NullRejector.call]
  have ht : ∀ j, SymmPosDef (block3 (cloudA.cov j)) := fun j => (covarianceCloud_cloudA j).2
  exact ⟨hok, ht, covarianceCloud_cloudB, (linearize_H_posSemidef GICPFactor.new cloudA cloudB
    treeZero shiftX 0 (NullRejector.call {}) out0 hok ht covarianceCloud_cloudB).1⟩

/-! ## Sign of the cost -/

theorem quad_border (M : Matrix4d) (r : Vector4d) (hM : ∀ i, M 3 i = 0 ∧ M i 3 = 0) :
    Matrix.dotProduct r (M.mulVec r)
      = Matrix.dotProduct (head3 r) ((block3 M).mulVec (head3 r)) := by
  simp [Matrix.dotProduct, Matrix.mulVec, Fin.sum_univ_four, Fin.sum_univ_three, head3, block3,
    (hM 0).1, (hM 1).1, (hM 2).1, (hM 3).1, (hM 0).2, (hM 1).2, (hM 2).2, Matrix.vecHead,
    Matrix.vecTail]

/-- The sign of a cost `0.5 * r^T * M * r` for a weighting with zero border and positive
definite block. -/
theorem cost_sign (M : Matrix4d) (r : Vector4d) (hM : ∀ i, M 3 i = 0 ∧ M i 3 = 0)
    (hpd : SymmPosDef (block3 M)) :
    0 ≤ (1 / 2 : ℚ) * Matrix.dotProduct r (M.mulVec r) ∧
    ((1 / 2 : ℚ) * Matrix.dotProduct r (M.mulVec r) = 0 ↔ head3 r = 0) := by
  rw [quad_border M r hM]
  have hnn := (SymmPosDef.toSemidef hpd).2 (head3 r)
  refine ⟨by positivity, ⟨fun h => ?_, fun h => by rw [h]; simp⟩⟩
  by_contra hne
  have := hpd.2 (head3 r) hne
  linarith

theorem weightInv_new : GICPFactor.new.WeightInv := by
  refine ⟨fun i => ⟨rfl, rfl⟩, ?_, fun h => absurd rfl h⟩
  have : block3 GICPFactor.new.mahalanobis = 0 := by
    ext a b
    fin_cases a <;> fin_cases b <;>
      simp [block3, GICPFactor.new, Matrix.vecHead, Matrix.vecTail]
  rw [this]
  exact symmPosSemidef_zero

/-- A successful good `linearize` caches a positive definite block, keeps the border, and
writes the cost of its cached weighting. -/
theorem linearize_success_weight (self : GICPFactor) (target source : PointCloud)
    (target_tree : TargetTree) (T : Isometry3d) (source_index : Nat)
    (rejector : CorrespondenceRejector) (out : LinearizeOut)
    (hok : (self.linearize target source target_tree T source_index rejector out).1 = true)
    (hgood : (FactorCall.linearize target source target_tree T source_index rejector out).Good) :
    SymmPosDef (block3
      (self.linearize target source target_tree T source_index rejector out).2.1.mahalanobis) ∧
    (self.linearize target source target_tree T source_index rejector out).2.2.e
      = (1 / 2) * Matrix.dotProduct
        (target.point
            (self.linearize target source target_tree T source_index rejector
              out).2.1.target_index
          - T.apply (source.point source_index))
        ((self.linearize target source target_tree T source_index rejector
            out).2.1.mahalanobis.mulVec
          (target.point
              (self.linearize target source target_tree T source_index rejector
                out).2.1.target_index
            - T.apply (source.point source_index))) := by
  obtain ⟨ht, hs⟩ := hgood
  cases hk : target_tree.knn_search (T.apply (source.point source_index)) with
  | none => simp [linearize_none _ _ _ _ _ _ _ _ hk] at hok
  | some kd =>
    obtain ⟨k, d⟩ := kd
    cases hr : rejector T k source_index d with
    | true => simp [linearize_reject _ _ _ _ _ _ _ _ k d hk hr] at hok
    | false =>
      rw [linearize_accept _ _ _ _ _ _ _ _ k d hk hr]
      simp only [block3_setBlock3]
      exact ⟨weight_posDef T _ _ (ht k) (hs source_index).1, trivial⟩

theorem weightInv_step (f : GICPFactor) (c : FactorCall) (hc : c.Good) (hf : f.WeightInv) :
    (f.step c).WeightInv := by
  cases c with
  | error target source T => exact hf
  | linearize target source target_tree T source_index rejector out =>
    simp only [GICPFactor.step]
    have hb : ∀ i, (f.linearize target source target_tree T source_index rejector
        out).2.1.mahalanobis 3 i = 0 ∧ (f.linearize target source target_tree T source_index
        rejector out).2.1.mahalanobis i 3 = 0 := by
      intro i
      have := linearize_mahalanobis_border f target source target_tree T source_index rejector
        out i
      rw [this.1, this.2]
      exact hf.1 i
    cases hok : (f.linearize target source target_tree T source_index rejector out).1 with
    | true =>
      have hw := (linearize_success_weight f target source target_tree T source_index rejector
        out hok hc).1
      exact ⟨hb, SymmPosDef.toSemidef hw, fun _ => hw⟩
    | false =>
      have hfr := linearize_false_frame f target source target_tree T source_index rejector
        out hok
      refine ⟨hb, ?_, fun h => ?_⟩
      · rw [hfr.2]; exact hf.2.1
      · rw [hfr.2] at h; exact absurd rfl h

theorem weightInv_run (calls : List FactorCall) :
    ∀ (f : GICPFactor), (∀ c ∈ calls, c.Good) → f.WeightInv → (f.run calls).WeightInv := by
  induction calls with
  | nil => intro f _ hf; exact hf
  | cons c cs ih =>
    intro f hgood hf
    exact ih (f.step c) (fun c2 hc2 => hgood c2 (List.mem_cons_of_mem _ hc2))
      (weightInv_step f c (hgood c (List.mem_cons_self _ _)) hf)

theorem error_sign (f : GICPFactor) (hf : f.WeightInv) (target source : PointCloud)
    (T : Isometry3d) :
    0 ≤ f.error target source T ∧
    (f.target_index ≠ SIZE_MAX →
      (f.error target source T = 0 ↔
        head3 (target.point f.target_index - T.apply (source.point f.source_index)) = 0)) := by
  by_cases h : f.target_index = SIZE_MAX
  · simp [GICPFactor.error, h]
  · have hc := cost_sign f.mahalanobis
      (target.point f.target_index - T.apply (source.point f.source_index)) hf.1 (hf.2.2 h)
    simp only [GICPFactor.error, if_neg h]
    exact ⟨hc.1, fun _ => hc.2⟩

theorem good_cloudA_cloudB (target_tree : TargetTree) (T : Isometry3d) (source_index : Nat)
    (rejector : CorrespondenceRejector) (out : LinearizeOut) :
    (FactorCall.linearize cloudA cloudB target_tree T source_index rejector out).Good :=
  ⟨fun j => (covarianceCloud_cloudA j).2, covarianceCloud_cloudB⟩

/-- C19: for a factor created by the default constructor and used in any sequence of calls on
clouds whose 3x3 covariance blocks are symmetric positive definite, the source covariances
being covariance matrices (symmetric positive semidefinite 4x4, with any fourth row and
column): for every pose, every value returned by `error` is `>= 0`, and with a cached
correspondence it is 0 exactly when the xyz part of the residual is zero; and the cost `e`
written by a successful `linearize` on such clouds is `>= 0`, and is 0 exactly when the xyz
part of the residual is zero. -/
theorem cost_nonneg (calls : List FactorCall) (hgood : ∀ c ∈ calls, c.Good) :
    (∀ (target source : PointCloud) (T : Isometry3d),
      0 ≤ (GICPFactor.new.run calls).error target source T ∧
      ((GICPFactor.new.run calls).target_index ≠ SIZE_MAX →
        ((GICPFactor.new.run calls).error target source T = 0 ↔
          head3 (target.point (GICPFactor.new.run calls).target_index
            - T.apply (source.point (GICPFactor.new.run calls).source_index)) = 0))) ∧
    (∀ (target source : PointCloud) (target_tree : TargetTree) (T : Isometry3d)
      (source_index : Nat) (rejector : CorrespondenceRejector) (out : LinearizeOut),
      (FactorCall.linearize target source target_tree T source_index rejector out).Good →
      ((GICPFactor.new.run calls).linearize target source target_tree T source_index rejector
        out).1 = true →
      0 ≤ ((GICPFactor.new.run calls).linearize target source target_tree T source_index
        rejector out).2.2.e ∧
      (((GICPFactor.new.run calls).linearize target source target_tree T source_index
          rejector out).2.2.e = 0 ↔
        head3 (target.point
            ((GICPFactor.new.run calls).linearize target source target_tree T source_index
              rejector out).2.1.target_index
          - T.apply (source.point source_index)) = 0)) := by
  have hinv := weightInv_run calls GICPFactor.new hgood weightInv_new
  refine ⟨fun target source T => error_sign _ hinv target source T,
    fun target source target_tree T source_index rejector out hg hok => ?_⟩
  have hw := linearize_success_weight (GICPFactor.new.run calls) target source target_tree T
    source_index rejector out hok hg
  have hb : ∀ i, ((GICPFactor.new.run calls).linearize target source target_tree T
      source_index rejector out).2.1.mahalanobis 3 i = 0 ∧
      ((GICPFactor.new.run calls).linearize target source target_tree T source_index rejector
        out).2.1.mahalanobis i 3 = 0 := by
    intro i
    have := linearize_mahalanobis_border (GICPFactor.new.run calls) target source target_tree
      T source_index rejector out i
    rw [this.1, this.2]
    exact hinv.1 i
  rw [hw.2]
  exact cost_sign _ _ hb hw.1

theorem cost_nonneg_witness :
    (∀ c ∈ [FactorCall.linearize cloudA cloudB treeZero shiftX 0 (NullRejector.call {}) out0,
      FactorCall.error cloudA cloudB shiftX], c.Good) ∧
    0 ≤ (GICPFactor.new.run
      [FactorCall.linearize cloudA cloudB treeZero shiftX 0 (NullRejector.call {}) out0,
        FactorCall.error cloudA cloudB shiftX]).error cloudA cloudB Isometry3d.Identity := by
  have hgood : ∀ c ∈ [FactorCall.linearize cloudA cloudB treeZero shiftX 0
      (NullRejector.call {}) out0, FactorCall.error cloudA cloudB shiftX], c.Good := by
    intro c hc
    simp only [List.mem_cons, List.mem_singleton, List.not_mem_nil, or_false] at hc
    rcases hc with rfl | rfl
    · exact good_cloudA_cloudB _ _ _ _ _
    · exact trivial
  exact ⟨hgood, ((cost_nonneg _ hgood).1 cloudA cloudB Isometry3d.Identity).1⟩

end small_gicp
